import Mathlib

/-!
Verification of the go-swagger annotation parsing and type-schema resolution
engine against its natural-language specification.

The development shallowly embeds two parts of the repository:

* the gin comment generator (package swagger: GetGinComments, parseComments,
  generateComments, appendParam, parseQueryPathParams and the comment
  regular expressions), and
* the schema parser (parser/parser.go: getTypeSchema, ParseDefinition,
  parseTypeExpr, parseStruct, parseStructField, getRefTypeSchema,
  renameRefSchemas, renameSchema and helpers).

Go strings are modelled as Lean String values; the standard library string
operations the code uses (HasPrefix, HasSuffix, Split, Trim, ContainsAny,
ReplaceAll for a one-character pattern) are implemented over the underlying
character lists so their behaviour is fully transparent.  Maps are modelled
as association lists whose insert overwrites; panics (out-of-range indexing,
nil dereference) are modelled by an Option result where none marks a crash.
-/

namespace GoSwagger

/-- Literal left brace character, used when building path placeholders. -/
def lbrace : Char := Char.ofNat 123

/-- Literal right brace character, used when building path placeholders. -/
def rbrace : Char := Char.ofNat 125

/-- All suffixes of a list, longest first, including the empty suffix. -/
def listTails {α : Type} : List α → List (List α)
  | [] => [[]]
  | x :: xs => (x :: xs) :: listTails xs

/-- Substring test: Go strings.Contains, via an explicit suffix scan. -/
def goContains (s pat : String) : Bool :=
  (listTails s.data).any fun t => pat.data.isPrefixOf t

/-- Go strings.HasPrefix. -/
def goHasPrefix (s pre : String) : Bool :=
  pre.data.isPrefixOf s.data

/-- Go strings.HasSuffix. -/
def goHasSuffix (s suf : String) : Bool :=
  suf.data.isSuffixOf s.data

/-- Go strings.TrimPrefix: removes one leading occurrence of the prefix. -/
def goTrimPrefix (s pre : String) : String :=
  if goHasPrefix s pre then ⟨s.data.drop pre.data.length⟩ else s

/-- Go strings.TrimSuffix: removes one trailing occurrence of the suffix. -/
def goTrimSuffix (s suf : String) : String :=
  if goHasSuffix s suf then ⟨s.data.take (s.data.length - suf.data.length)⟩ else s

/-- Go strings.Trim for the one-character cutset consisting of a double
quote: drops leading and trailing quote characters. -/
def goTrimQuotes (s : String) : String :=
  ⟨((s.data.dropWhile (· = '"')).reverse.dropWhile (· = '"')).reverse⟩

/-- Go strings.ContainsAny: some character of chars occurs in s. -/
def goContainsAny (s chars : String) : Bool :=
  chars.data.any fun c => s.data.contains c

/-- Go strings.ContainsRune for one character. -/
def goContainsRune (s : String) (c : Char) : Bool :=
  s.data.contains c

/-- Go strings.Split with a one-character separator.  Always returns a
nonempty list; splitting the empty string yields one empty field. -/
def goSplitChar (l : List Char) (sep : Char) : List (List Char) :=
  match l with
  | [] => [[]]
  | c :: rest =>
    let tail := goSplitChar rest sep
    if c = sep then [] :: tail
    else
      match tail with
      | [] => [[c]]
      | f :: fs => (c :: f) :: fs

/-- String-level wrapper for goSplitChar. -/
def goSplit (s : String) (sep : Char) : List String :=
  (goSplitChar s.data sep).map fun l => ⟨l⟩

/-- Go strings.Join with a one-character separator. -/
def goJoinChar (ls : List (List Char)) (sep : Char) : List Char :=
  match ls with
  | [] => []
  | [l] => l
  | l :: rest => l ++ sep :: goJoinChar rest sep

/-- String-level wrapper for goJoinChar. -/
def goJoin (ls : List String) (sep : Char) : String :=
  ⟨goJoinChar (ls.map String.data) sep⟩

/-- Go strings.ReplaceAll for a one-character pattern and replacement. -/
def goReplaceChar (s : String) (c1 c2 : Char) : String :=
  ⟨s.data.map fun c => if c = c1 then c2 else c⟩

/-- Go strings.ToUpper, restricted to the ASCII behaviour the parser needs. -/
def goToUpper (s : String) : String :=
  ⟨s.data.map Char.toUpper⟩

/-- Lexicographic comparison of strings by character, matching the byte
order Go sort.Strings uses on ASCII data. -/
def charListLe : List Char → List Char → Bool
  | [], _ => true
  | _ :: _, [] => false
  | a :: as, b :: bs => if a < b then true else if b < a then false else charListLe as bs

/-- Insertion into an ascending list, the elementary step of sortStrings. -/
def insertSorted (x : String) : List String → List String
  | [] => [x]
  | y :: ys => if charListLe x.data y.data then x :: y :: ys else y :: insertSorted x ys

/-- Go sort.Strings: sort a string slice ascending. -/
def sortStrings : List String → List String
  | [] => []
  | x :: xs => insertSorted x (sortStrings xs)

/-! ## The comment regular expressions

Each commentXRegExp value in the source is a compiled regular expression
used only through MatchString; the definitions below decide, by explicit
scanning, whether a match exists in the line.  None of the patterns is
anchored, so a match exists exactly when the string contains the pattern
somewhere. -/

/-- MatchString of commentSummaryRegExp, pattern at-Summary followed by a
space and an arbitrary (possibly empty) rest: a match exists exactly when
the marker with its trailing space occurs in the line. -/
def commentSummaryRegExpMatch (s : String) : Bool :=
  goContains s "@Summary "

/-- MatchString of commentDiscriptionRegExp, pattern at-Description plus a
space and an arbitrary rest. -/
def commentDiscriptionRegExpMatch (s : String) : Bool :=
  goContains s "@Description "

/-- The closed MIME-type vocabulary of commentMimeRegExp, in source order. -/
def mimeTypes : List String :=
  ["json-api", "json-stream", "xml", "plain", "html", "mpfd",
   "x-www-form-urlencoded", "json", "octet-stream", "png", "jpeg", "gif"]

/-- MatchString of commentMimeRegExp: an at-Accept or at-Produce marker,
a space, then one of the MIME alternatives starting at that position. -/
def commentMimeRegExpMatch (s : String) : Bool :=
  (listTails s.data).any fun t =>
    ("@Accept ".data.isPrefixOf t &&
      mimeTypes.any fun m => m.data.isPrefixOf (t.drop 8)) ||
    ("@Produce ".data.isPrefixOf t &&
      mimeTypes.any fun m => m.data.isPrefixOf (t.drop 9))

/-- The location alternatives of commentParamRegExp. -/
def paramLocations : List String := ["query", "path", "header", "body", "formData"]

/-- MatchString of commentParamRegExp, whose pattern is the literal marker
at-Params (note the trailing s in the source, unlike the at-Param syntax the
generator itself emits), a space, a free field, a space, one of the location
alternatives, a space, a free field, a space, true or false, a space and a
free tail.  A match exists exactly when the line decomposes that way. -/
def commentParamRegExpMatch (s : String) : Bool :=
  (listTails s.data).any fun t =>
    "@Params ".data.isPrefixOf t &&
    ((listTails (t.drop 8)).any fun u =>
      paramLocations.any fun loc =>
        (' ' :: loc.data ++ [' ']).isPrefixOf u &&
        ((listTails (u.drop (loc.data.length + 2))).any fun w =>
          (" true ".data.isPrefixOf w || " false ".data.isPrefixOf w)))

/-- MatchString of commentResponseRegExp: an at-Success, at-Failure or
at-Response marker occurs somewhere in the line. -/
def commentResponseRegExpMatch (s : String) : Bool :=
  goContains s "@Success" || goContains s "@Failure" || goContains s "@Response"

/-- MatchString of commentHeaderRegExp. -/
def commentHeaderRegExpMatch (s : String) : Bool :=
  goContains s "@Header"

/-- MatchString of commentRouterRegExp, pattern at-Router plus three
space-separated free fields: a match exists exactly when the marker with its
space occurs and at least two further spaces follow it. -/
def commentRouterRegExpMatch (s : String) : Bool :=
  (listTails s.data).any fun t =>
    "@Router ".data.isPrefixOf t && ((t.drop 8).countP (· = ' ') ≥ 2)

/-- Word characters of the regexp escape backslash-w. -/
def isWordChar (c : Char) : Bool :=
  c.isAlphanum || c = '_'

/-- One scan of commentPathParamRegExp over a character list.  The pattern
recognises, leftmost-first, either a colon or star followed by word
characters, or a braced word; the scan returns the matched tokens in order
together with the input in which every token has been replaced through f
(FindAllString and ReplaceAllString / ReplaceAllStringFunc share it). -/
def pathParamScan (f : String → List Char) : Nat → List Char → List String × List Char
  | 0, l => ([], l)
  | _ + 1, [] => ([], [])
  | fuel + 1, c :: rest =>
    if c = ':' ∨ c = '*' then
      let w := rest.takeWhile isWordChar
      let rest' := rest.dropWhile isWordChar
      let (ts, out) := pathParamScan f fuel rest'
      ((⟨c :: w⟩ : String) :: ts, f ⟨c :: w⟩ ++ out)
    else if c = lbrace then
      let w := rest.takeWhile isWordChar
      let rest' := rest.dropWhile isWordChar
      match rest' with
      | d :: rest'' =>
        if d = rbrace then
          let (ts, out) := pathParamScan f fuel rest''
          ((⟨lbrace :: w ++ [rbrace]⟩ : String) :: ts, f ⟨lbrace :: w ++ [rbrace]⟩ ++ out)
        else
          let (ts, out) := pathParamScan f fuel rest
          (ts, c :: out)
      | [] =>
        let (ts, out) := pathParamScan f fuel rest
        (ts, c :: out)
    else
      let (ts, out) := pathParamScan f fuel rest
      (ts, c :: out)

/-- FindAllString of commentPathParamRegExp: all placeholder tokens.  The
fuel argument of the scan, one unit per character consumed, is the length
of the input and therefore always sufficient. -/
def pathParamFindAll (s : String) : List String :=
  (pathParamScan (fun _ => []) s.data.length s.data).1

/-- ReplaceAllString of commentPathParamRegExp with the replacement at-at. -/
def pathParamReplaceAtAt (s : String) : String :=
  ⟨(pathParamScan (fun _ => "@@".data) s.data.length s.data).2⟩

/-- ReplaceAllStringFunc of commentPathParamRegExp used when generating a
router comment: strips one leading colon then one leading star from the
token and wraps the result in braces. -/
def pathParamReplaceBrace (s : String) : String :=
  ⟨(pathParamScan
      (fun tok => lbrace :: (goTrimPrefix (goTrimPrefix tok ":") "*").data ++ [rbrace])
      s.data.length s.data).2⟩

/-! ## The gin comment generator data model

ExprArgItem, ExprItem and FunctionDesc mirror the structures the call-site
inspector produces (file.go / ParseFileAST); RouteInfo mirrors the two
fields of gin.RouteInfo the generator reads.  The Go field Type is called
Type_ here because Type is reserved in Lean.  The route-info map
(map from handler key to RouteInfo) is modelled as an association list. -/

/-- One recorded argument of an inspected call expression. -/
structure ExprArgItem where
  Name : String
  Type_ : String
  Value : String
deriving DecidableEq, Repr

/-- One inspected call expression: receiver type, method name, arguments. -/
structure ExprItem where
  Receiver : String
  Name : String
  Args : List ExprArgItem
deriving DecidableEq, Repr

/-- The portion of FunctionDesc the comment generator reads. -/
structure FunctionDesc where
  Name : String
  PackageName : String
  Comments : List String
  Exprs : List ExprItem
deriving DecidableEq, Repr

/-- The portion of gin.RouteInfo the comment generator reads. -/
structure RouteInfo where
  Method : String
  Path : String
deriving DecidableEq, Repr

/-- The GinSwagger accumulator: the embedded FunctionDesc fields followed by
the category buckets and single-valued slots of the source structure. -/
structure GinSwagger where
  Name : String
  PackageName : String
  Comments : List String
  Exprs : List ExprItem
  summaries : List String
  descriptions : List String
  params : List String
  failures : List String
  headers : List String
  accept : String
  produce : String
  success : String
  response : String
  router : String
  others : List String
deriving DecidableEq, Repr

/-- Log lines the generator emits through log.Printf, by shape. -/
inductive GinLog where
  | warnNotSupport (selector : String)
  | errFormatMismatch (router path : String)
  | errParamsMismatch (router path : String)
  | errPathParamNotFound (path param funcName : String)
deriving DecidableEq, Repr

/-- One iteration of the parseComments classification chain, in source
order: summary, description, param, response (with its prefix dispatch),
header, MIME (with its prefix dispatch), router, otherwise others. -/
def parseCommentStep (desc : GinSwagger) (comment : String) : GinSwagger :=
  if commentSummaryRegExpMatch comment then
    { desc with summaries := desc.summaries ++ [comment] }
  else if commentDiscriptionRegExpMatch comment then
    { desc with descriptions := desc.descriptions ++ [comment] }
  else if commentParamRegExpMatch comment then
    { desc with params := desc.params ++ [comment] }
  else if commentResponseRegExpMatch comment then
    if goHasPrefix comment "// @Success" then { desc with success := comment }
    else if goHasPrefix comment "// @Failure" then
      { desc with failures := desc.failures ++ [comment] }
    else if goHasPrefix comment "// @Response" then { desc with response := comment }
    else { desc with others := desc.others ++ [comment] }
  else if commentHeaderRegExpMatch comment then
    { desc with headers := desc.headers ++ [comment] }
  else if commentMimeRegExpMatch comment then
    if goHasPrefix comment "// @Accept" then { desc with accept := comment }
    else if goHasPrefix comment "// @Produce" then { desc with produce := comment }
    else desc
  else if commentRouterRegExpMatch comment then
    { desc with router := comment }
  else
    { desc with others := desc.others ++ [comment] }

/-- The parseComments method: fold the classification over the comments. -/
def parseComments (desc : GinSwagger) : GinSwagger :=
  desc.Comments.foldl parseCommentStep desc

/-- The appendParam helper: append the generated source line unless some
existing param line already starts with the probe prefix p. -/
def appendParam (params : List String) (p src : String) : List String :=
  if params.any fun param => goHasPrefix param p then params
  else params ++ [src]

/-- The parseQueryPathParams helper: every placeholder token of the string,
stripped of its colon or star prefix and of surrounding braces. -/
def parseQueryPathParams (path : String) : List String :=
  (pathParamFindAll path).map fun param =>
    goTrimSuffix (goTrimPrefix (goTrimPrefix (goTrimPrefix param ":") "*") "\x7b") "\x7d"

/-- The display type of a response payload: the last slash-segment of the
recorded type, or the type itself when it has no slash (the split of the
JSON and JSONP response cases of generateComments). -/
def argTypeOf (t : String) : String :=
  let splitType := goSplit t '/'
  if splitType.length = 1 ∨ splitType.length = 0 then t
  else splitType.getLastD ""

/-- The response switch of generateComments for one call expression.
Returns none on a panic (out-of-range argument access); otherwise the
updated accumulator and a flag recording whether the loop body issued
continue (the success slot was already filled). -/
def respSwitch (desc : GinSwagger) (logs : List GinLog) (e : ExprItem)
    (selector : String) : Option (GinSwagger × List GinLog × Bool) :=
  if selector = "*github.com/gin-gonic/gin.Context.JSON" ∨
     selector = "*github.com/gin-gonic/gin.Context.JSONP" then
    match e.Args.get? 1 with
    | none => none
    | some args1 =>
      let argType := argTypeOf args1.Type_
      match e.Args.get? 0 with
      | none => none
      | some args0 =>
        if args0.Name = "http.StatusOK" ∨ args0.Value = "200" then
          if desc.success.length > 0 then some (desc, logs, true)
          else some ({ desc with
            success := "// @Success " ++ args0.Value ++ " \x7bobject\x7d " ++ argType },
            logs, false)
        else
          some ({ desc with failures := desc.failures ++
            ["// @Failure " ++ args0.Value ++ " \x7bobject\x7d " ++ argType] },
            logs, false)
  else if selector = "*github.com/gin-gonic/gin.Context.XML" ∨
          selector = "*github.com/gin-gonic/gin.Context.YAML" ∨
          selector = "*github.com/gin-gonic/gin.Context.ProtoBuf" then
    some (desc, logs ++ [GinLog.warnNotSupport selector], false)
  else
    some (desc, logs, false)

/-- The parameter switch of generateComments for one call expression:
query accessors, path parameter access and body binding.  Returns none on a
panic (out-of-range argument access). -/
def paramSwitch (desc : GinSwagger) (logs : List GinLog) (e : ExprItem)
    (selector : String) : Option (GinSwagger × List GinLog) :=
  if selector = "*github.com/gin-gonic/gin.Context.Query" then
    match e.Args.get? 0 with
    | none => none
    | some args0 =>
      let argName := goTrimQuotes args0.Name
      let newParams := appendParam desc.params ("// @Param " ++ argName)
        ("// @Param " ++ argName ++ " query string false " ++ args0.Value)
      some ({ desc with params := newParams }, logs)
  else if selector = "*github.com/gin-gonic/gin.Context.QueryArray" then
    match e.Args.get? 0 with
    | none => none
    | some args0 =>
      let argName := goTrimQuotes args0.Name
      let newParams := appendParam desc.params ("// @Param " ++ argName)
        ("// @Param " ++ argName ++ " query []string false " ++ args0.Value)
      some ({ desc with params := newParams }, logs)
  else if selector = "*github.com/gin-gonic/gin.Context.QueryMap" then
    match e.Args.get? 0 with
    | none => none
    | some args0 =>
      let argName := goTrimQuotes args0.Name
      let newParams := appendParam desc.params ("// @Param " ++ argName)
        ("// @Param " ++ argName ++ " query object false " ++ args0.Value)
      some ({ desc with params := newParams }, logs)
  else if selector = "*github.com/gin-gonic/gin.Context.DefaultQuery" then
    match e.Args.get? 0 with
    | none => none
    | some args0 =>
      match e.Args.get? 1 with
      | none => none
      | some args1 =>
        let argName := goTrimQuotes args0.Name
        let newParams := appendParam desc.params ("// @Param " ++ argName)
          ("// @Param " ++ argName ++ " query object false " ++ args0.Value ++
            " default(" ++ args1.Value ++ ")")
        some ({ desc with params := newParams }, logs)
  else if selector = "*github.com/gin-gonic/gin.Context.GetQuery" then
    match e.Args.get? 0 with
    | none => none
    | some args0 =>
      let argName := goTrimQuotes args0.Name
      let newParams := appendParam desc.params ("// @Param " ++ argName)
        ("// @Param " ++ argName ++ " query object false " ++ args0.Value)
      some ({ desc with params := newParams }, logs)
  else if selector = "*github.com/gin-gonic/gin.Context.GetQueryArray" then
    match e.Args.get? 0 with
    | none => none
    | some args0 =>
      let argName := goTrimQuotes args0.Name
      let newParams := appendParam desc.params ("// @Param " ++ argName)
        ("// @Param " ++ argName ++ " query []string false " ++ args0.Value)
      some ({ desc with params := newParams }, logs)
  else if selector = "*github.com/gin-gonic/gin.Context.GetQueryMap" then
    match e.Args.get? 0 with
    | none => none
    | some args0 =>
      let argName := goTrimQuotes args0.Name
      let newParams := appendParam desc.params ("// @Param " ++ argName)
        ("// @Param " ++ argName ++ " query object false " ++ args0.Value)
      some ({ desc with params := newParams }, logs)
  else if selector = "*github.com/gin-gonic/gin.Context.ShouldBindQuery" then
    match e.Args.get? 0 with
    | none => none
    | some args0 =>
      let splitType := goSplit args0.Type_ '/'
      if splitType.length = 1 ∨ splitType.length = 0 then
        match e.Args.get? 1 with
        | none => none
        | some args1 =>
          let argName := goTrimQuotes args0.Name
          let newParams := appendParam desc.params ("// @Param " ++ argName)
            ("// @Param " ++ argName ++ " query " ++ args1.Type_ ++ " false \"" ++
              argName ++ "\"")
          some ({ desc with params := newParams }, logs)
      else
        let argType := splitType.getLastD ""
        let argName := goTrimQuotes args0.Name
        let newParams := appendParam desc.params ("// @Param " ++ argName)
          ("// @Param " ++ argName ++ " query " ++ argType ++ " false \"" ++
            argName ++ "\"")
        some ({ desc with params := newParams }, logs)
  else if selector = "*github.com/gin-gonic/gin.Context.Param" then
    match e.Args.get? 0 with
    | none => none
    | some args0 =>
      let splitType := goSplit args0.Type_ '/'
      let argType := if splitType.length = 1 then args0.Type_ else splitType.getLastD ""
      let argName := goTrimQuotes args0.Name
      let newParams := appendParam desc.params ("// @Param " ++ argName)
        ("// @Param " ++ argName ++ " path " ++ argType ++ " true \"" ++
          argName ++ "\"")
      some ({ desc with params := newParams }, logs)
  else if selector = "*github.com/gin-gonic/gin.Context.ShouldBindJSON" then
    match e.Args.get? 0 with
    | none => none
    | some args0 =>
      let splitType := goSplit args0.Type_ '/'
      if splitType.length = 1 ∨ splitType.length = 0 then
        match e.Args.get? 1 with
        | none => none
        | some args1 =>
          let argName := goTrimQuotes args0.Name
          let newParams := appendParam desc.params ("// @Param " ++ argName)
            ("// @Param " ++ argName ++ " body " ++ args1.Type_ ++ " true \"" ++
              argName ++ "\"")
          some ({ desc with params := newParams }, logs)
      else
        let argType := splitType.getLastD ""
        let argName := goTrimQuotes args0.Name
        let newParams := appendParam desc.params ("// @Param " ++ argName)
          ("// @Param " ++ argName ++ " body " ++ argType ++ " true \"" ++
            argName ++ "\"")
        some ({ desc with params := newParams }, logs)
  else
    some (desc, logs)

/-- One iteration of the expressions loop of generateComments: the response
switch, then, unless that switch issued continue, the parameter switch. -/
def exprStep (st : GinSwagger × List GinLog) (e : ExprItem) :
    Option (GinSwagger × List GinLog) :=
  let selector := e.Receiver ++ "." ++ e.Name
  match respSwitch st.1 st.2 e selector with
  | none => none
  | some (desc1, logs1, skip) =>
    if skip then some (desc1, logs1) else paramSwitch desc1 logs1 e selector

/-- The expressions loop of generateComments over all inspected calls. -/
def exprsLoop (st : GinSwagger × List GinLog) : List ExprItem →
    Option (GinSwagger × List GinLog)
  | [] => some st
  | e :: rest =>
    match exprStep st e with
    | none => none
    | some st1 => exprsLoop st1 rest

/-- The route-info loop at the end of generateComments.  An early return of
the source aborts the whole loop, so mismatch branches stop the recursion.
The pathParams argument is the local map of the source function, which is
declared and never written, hence always empty at this point. -/
def routeLoop (pathParams : List (String × String)) :
    GinSwagger × List GinLog → List (String × RouteInfo) → GinSwagger × List GinLog
  | st, [] => st
  | (desc, logs), (key, info) :: rest =>
    if goHasSuffix key desc.PackageName then
      if desc.router.length > 0 then
        let swaggerQueryParams := parseQueryPathParams desc.router
        let swaggerFormat := pathParamReplaceAtAt desc.router
        let pathFormat := pathParamReplaceAtAt info.Path
        if !(goContainsAny swaggerFormat pathFormat) then
          (desc, logs ++ [GinLog.errFormatMismatch desc.router info.Path])
        else if swaggerQueryParams.length ≠ pathParams.length then
          (desc, logs ++ [GinLog.errParamsMismatch desc.router info.Path])
        else
          match swaggerQueryParams.find? (fun p => !(pathParams.any fun kv => kv.1 = p)) with
          | some param =>
            (desc, logs ++ [GinLog.errPathParamNotFound info.Path param desc.Name])
          | none => routeLoop pathParams (desc, logs) rest
      else
        let path := pathParamReplaceBrace info.Path
        routeLoop pathParams
          ({ desc with router :=
              "// @Router " ++ path ++ " [" ++ info.Method ++ "] " ++ desc.PackageName },
            logs) rest
    else
      routeLoop pathParams (desc, logs) rest

/-- The summary synthesis at the head of generateComments: prepend a
summary built from the function name unless an identical one exists. -/
def summarySynthesis (desc : GinSwagger) : GinSwagger :=
  let genSummary := "// @Summary " ++ desc.Name
  let isHasSummary := desc.summaries.any fun summary => summary = genSummary
  if isHasSummary then desc else { desc with summaries := genSummary :: desc.summaries }

/-- The generateComments method: summary synthesis, the expressions loop,
then the route loop; none marks a panic inside the expressions loop. -/
def generateComments (routeInfos : List (String × RouteInfo)) (desc : GinSwagger) :
    Option (GinSwagger × List GinLog) :=
  let desc1 := summarySynthesis desc
  let pathParams : List (String × String) := []
  match exprsLoop (desc1, []) desc1.Exprs with
  | none => none
  | some st1 => some (routeLoop pathParams st1 routeInfos)

/-- Construction of the initial GinSwagger accumulator in GetGinComments. -/
def initGinSwagger (funcDesc : FunctionDesc) : GinSwagger :=
  { Name := funcDesc.Name, PackageName := funcDesc.PackageName,
    Comments := funcDesc.Comments, Exprs := funcDesc.Exprs,
    summaries := [], descriptions := [], params := [], failures := [], headers := [],
    accept := "", produce := "", success := "", response := "", router := "",
    others := [] }

/-- The GetGinComments entry point: parse the comments, generate inferred
ones, then assemble and sort the result list; none marks a panic. -/
def GetGinComments (funcDesc : FunctionDesc) (routeInfos : List (String × RouteInfo)) :
    Option (List String × List GinLog) :=
  let desc := parseComments (initGinSwagger funcDesc)
  match generateComments routeInfos desc with
  | none => none
  | some (d, logs) =>
    let results := d.summaries ++ d.descriptions ++ d.params ++ d.failures ++
      d.headers ++ d.others ++
      (if d.accept ≠ "" then [d.accept] else []) ++
      (if d.produce ≠ "" then [d.produce] else []) ++
      (if d.success ≠ "" then [d.success] else []) ++
      (if d.response ≠ "" then [d.response] else []) ++
      (if d.router ≠ "" then [d.router] else [])
    some (sortStrings results, logs)


/-! ## The schema parser data model

The parser state mirrors the mutable fields of the Parser structure that
the embedded functions touch.  TypeSpecDef values are compared by pointer
in Go (map keys, stack membership); the model gives every TypeSpecDef a
numeric identity and compares those.  Maps become association lists whose
insert overwrites, and the spec.Schema structure of go-openapi is modelled
by SpecSchema with exactly the fields this parser reads or writes. -/

/-- Errors of the parser.  The sentinel errors of the source are dedicated
constructors because the code compares errors against them; every
fmt.Errorf error is a msg. -/
inductive PErr where
  | recursiveParseStruct
  | funcTypeField
  | failedConvertPrimitiveType
  | msg (s : String)
deriving DecidableEq, Repr

/-- Modelled from the spec: the swagger schema-type constants of the
missing types file (OBJECT, ARRAY and friends). -/
def OBJECT : String := "object"

/-- Modelled from the spec: the array schema-type constant. -/
def ARRAY : String := "array"

/-- Modelled from the spec: the string schema-type constant. -/
def STRING : String := "string"

/-- Modelled from the spec: the integer schema-type constant. -/
def INTEGER : String := "integer"

/-- Modelled from the spec: the number schema-type constant. -/
def NUMBER : String := "number"

/-- Modelled from the spec: the boolean schema-type constant. -/
def BOOLEAN : String := "boolean"

/-- Modelled from the spec: the any schema-type constant. -/
def ANY : String := "any"

/-- The CamelCase naming-strategy constant of the source. -/
def CamelCase : String := "camelcase"

/-- The PascalCase naming-strategy constant of the source. -/
def PascalCase : String := "pascalcase"

/-- The SnakeCase naming-strategy constant of the source. -/
def SnakeCase : String := "snakecase"

/-- Values carried by example, enum, default and extension directives.
Floating point numbers are kept in their textual form; only success or
failure of the standard library conversion matters to the parser. -/
inductive GoValue where
  | nullV
  | strV (s : String)
  | intV (n : Int)
  | floatV (s : String)
  | boolV (b : Bool)
  | arrV (elems : List GoValue)
  | objV (fields : List (String × GoValue))

/-- The slice of go-openapi spec.Schema this parser reads and writes.  The
Go field Type is Type_ here; Items models Items.Schema (array schemas built
by this parser always populate Items); AdditionalProperties models the
SchemaOrBool pointer, its inner Option the wrapped schema pointer. -/
structure SpecSchema where
  Type_ : List String
  Properties : List (String × SpecSchema)
  Required : List String
  Ref : String
  Items : Option SpecSchema
  AdditionalProperties : Option (Option SpecSchema)
  Description : String
  Format : String
  ReadOnly : Bool
  Default : Option GoValue
  Example : Option GoValue
  Maximum : Option String
  Minimum : Option String
  MultipleOf : Option String
  MaxLength : Option Int
  MinLength : Option Int
  Enum : List GoValue
  Extensions : List (String × GoValue)

/-- The zero spec.Schema value. -/
def emptySpecSchema : SpecSchema :=
  ⟨[], [], [], "", none, none, "", "", false, none, none, none, none, none,
   none, none, [], []⟩

/-- Modelled from the spec: PrimitiveSchema of the missing schema helpers
builds a schema whose type list holds the one given type. -/
def PrimitiveSchema (t : String) : SpecSchema :=
  { emptySpecSchema with Type_ := [t] }

/-- Modelled from go-openapi: spec.ArrayProperty wraps an items schema. -/
def ArrayProperty (items : Option SpecSchema) : SpecSchema :=
  { emptySpecSchema with Type_ := [ARRAY], Items := items }

/-- Modelled from go-openapi: spec.MapProperty wraps a value schema in
AdditionalProperties. -/
def MapProperty (property : Option SpecSchema) : SpecSchema :=
  { emptySpecSchema with Type_ := [OBJECT], AdditionalProperties := some property }

/-- Modelled from the spec: a reference schema points to a named entry of
the definitions table instead of inlining content; its recorded URL
fragment is slash definitions slash name. -/
def RefSchema (name : String) : SpecSchema :=
  { emptySpecSchema with Ref := "#/definitions/" ++ name }

/-- The URL fragment of the reference RefSchema issues, as recorded in the
toBeRenamedRefURLs bookkeeping. -/
def refFragment (name : String) : String :=
  "/definitions/" ++ name

/-- Non-recursive attributes of one struct field: its names, its parsed
struct tag (reflect.StructTag modelled as an association list from tag key
to value), and its doc and line comments (empty string for absent). -/
structure FieldInfo where
  Names : List String
  Tag : Option (List (String × String))
  Doc : String
  Comment : String

/-- The ast.Expr shapes parseTypeExpr dispatches on.  A struct field pairs
its FieldInfo with the field type expression. -/
inductive AstExpr where
  | interfaceType
  | structType (fields : List (FieldInfo × AstExpr))
  | ident (name : String)
  | starExpr (x : AstExpr)
  | selectorExpr (x : AstExpr) (sel : String)
  | arrayType (elt : AstExpr)
  | mapType (value : AstExpr)
  | funcType
  | otherExpr

/-- One struct field of an ast.FieldList. -/
abbrev AstField := FieldInfo × AstExpr

/-- A type specification: numeric identity standing for the Go pointer,
the bare type name, the defining package path and the type expression. -/
structure TypeSpecDef where
  id : Nat
  Name : String
  PkgPath : String
  typeExpr : AstExpr

/-- The Schema record of the parser (display name, package path, pointer
to the built spec schema).  The Go field Schema is SchemaS here because the
field would shadow the structure name. -/
structure Schema where
  Name : String
  PkgPath : String
  SchemaS : Option SpecSchema

/-- The mutable parser state: caches, registries, rename bookkeeping, the
definitions map of the swagger document, the in-progress struct stack and
the naming-strategy configuration. -/
structure PState where
  parsedSchemas : List (Nat × Schema)
  outputSchemas : List (Nat × Schema)
  existSchemaNames : List (String × Schema)
  toBeRenamedSchemas : List (String × String)
  toBeRenamedRefURLs : List String
  definitionsMap : List (String × SpecSchema)
  structStack : List TypeSpecDef
  PropNamingStrategy : String

/-- The empty parser state produced by New. -/
def emptyPState : PState :=
  ⟨[], [], [], [], [], [], [], ""⟩

/-- Lookup in an association list keyed by Nat. -/
def lookupNat {α : Type} (l : List (Nat × α)) (k : Nat) : Option α :=
  (l.find? fun kv => kv.1 = k).map fun kv => kv.2

/-- Lookup in an association list keyed by String. -/
def lookupStr {α : Type} (l : List (String × α)) (k : String) : Option α :=
  (l.find? fun kv => kv.1 = k).map fun kv => kv.2

/-- Overwriting insert into an association list keyed by Nat (the Go map
has no ordering; any entry order with the same lookups is faithful). -/
def upsertNat {α : Type} (l : List (Nat × α)) (k : Nat) (v : α) : List (Nat × α) :=
  (l.filter fun kv => kv.1 ≠ k) ++ [(k, v)]

/-- Overwriting insert into an association list keyed by String. -/
def upsertStr {α : Type} (l : List (String × α)) (k : String) (v : α) : List (String × α) :=
  (l.filter fun kv => kv.1 ≠ k) ++ [(k, v)]

/-- Deletion from an association list keyed by String. -/
def removeStr {α : Type} (l : List (String × α)) (k : String) : List (String × α) :=
  l.filter fun kv => kv.1 ≠ k

/-- Write-back into the parsed-schemas cache; the source needs no explicit
write because its map stores pointers, the model makes the aliasing
explicit. -/
def writeParsed (st : PState) (k : Nat) (s : Schema) : PState :=
  { st with parsedSchemas := upsertNat st.parsedSchemas k s }

/-- Modelled from the spec: the type universe lookup findType, supplied by
the external package index (PackagesDefinitions.FindTypeSpec is not under
src); the environment maps type names to their specifications. -/
def FindTypeSpec (typeName : String) (env : List (String × TypeSpecDef)) :
    Option TypeSpecDef :=
  lookupStr env typeName

/-- Modelled from the spec: FullName of a TypeSpecDef qualifies the bare
name with the defining package path. -/
def TypeSpecDefFullName (t : TypeSpecDef) : String :=
  if t.PkgPath ≠ "" then t.PkgPath ++ "." ++ t.Name else t.Name

/-- Modelled from the spec: TypeDocName assigns the display name of a
registered type, the bare type name by default. -/
def TypeDocName (_fullName : String) (t : TypeSpecDef) : String :=
  t.Name

/-- Modelled from the spec: the Go primitive type vocabulary of the missing
IsGolangPrimitiveType helper. -/
def IsGolangPrimitiveType (typeName : String) : Bool :=
  ["uint", "int", "uint8", "int8", "uint16", "int16", "byte", "uint32",
   "int32", "rune", "uint64", "int64", "float32", "float64", "bool",
   "string"].contains typeName

/-- Modelled from the spec: TransToValidSchemeType maps Go primitive names
to swagger schema types. -/
def TransToValidSchemeType (typeName : String) : String :=
  if ["uint", "int", "uint8", "int8", "uint16", "int16", "byte", "uint32",
      "int32", "rune", "uint64", "int64"].contains typeName then INTEGER
  else if ["float32", "float64"].contains typeName then NUMBER
  else if typeName = "bool" then BOOLEAN
  else if typeName = "string" then STRING
  else typeName

/-- Modelled from the spec: IsNumericType of the missing helpers. -/
def IsNumericType (t : String) : Bool :=
  t = INTEGER || t = NUMBER

/-- The fullTypeName helper of the source. -/
def fullTypeName (pkgName typeName : String) : String :=
  if pkgName ≠ "" then pkgName ++ "." ++ typeName else typeName

/-- The convertFromSpecificToPrimitive helper: alias-of-primitive special
types become string or number, anything else keeps its name and reports
ErrFailedConvertPrimitiveType. -/
def convertFromSpecificToPrimitive (typeName : String) : String × Option PErr :=
  let name := if goContainsRune typeName '.' then (goSplit typeName '.').getD 1 "" else typeName
  match goToUpper name with
  | "TIME" => (STRING, none)
  | "OBJECTID" => (STRING, none)
  | "UUID" => (STRING, none)
  | "DECIMAL" => (NUMBER, none)
  | _ => (typeName, some PErr.failedConvertPrimitiveType)

/-- The renameSchema method: scope-qualify the last dot-segment of the name
with the package path and normalize slashes to underscores. -/
def renameSchema (name pkgPath : String) : String :=
  let parts := goSplit name '.'
  goReplaceChar (fullTypeName pkgPath (parts.getLastD "")) '/' '_'

/-- The isInStructStack method, pointer comparison modelled by the numeric
identities. -/
def isInStructStack (st : PState) (typeSpecDef : TypeSpecDef) : Bool :=
  st.structStack.any fun specDef => specDef.id = typeSpecDef.id

/-- The getRefTypeSchema method.  Returns the issued reference schema, the
(possibly renamed) Schema record so callers can reflect the pointer
mutation of the source, and the updated state. -/
def getRefTypeSchema (st : PState) (typeSpecDef : TypeSpecDef) (schema : Schema) :
    SpecSchema × Schema × PState :=
  match lookupNat st.outputSchemas typeSpecDef.id with
  | some _ =>
    (RefSchema schema.Name, schema,
      { st with toBeRenamedRefURLs := st.toBeRenamedRefURLs ++ [refFragment schema.Name] })
  | none =>
    let (schema1, st1) :=
      match lookupStr st.existSchemaNames schema.Name with
      | some existSchema =>
        let st2 :=
          if (lookupStr st.toBeRenamedSchemas existSchema.Name).isSome then st
          else { st with toBeRenamedSchemas :=
                  st.toBeRenamedSchemas ++ [(existSchema.Name, existSchema.PkgPath)] }
        ({ schema with Name := renameSchema schema.Name schema.PkgPath }, st2)
      | none =>
        (schema, { st with existSchemaNames := st.existSchemaNames ++ [(schema.Name, schema)] })
    let defs1 := upsertStr st1.definitionsMap schema1.Name emptySpecSchema
    let defs2 :=
      match schema1.SchemaS with
      | some ss => upsertStr defs1 schema1.Name ss
      | none => defs1
    let st3 :=
      { st1 with
        definitionsMap := defs2
        outputSchemas := st1.outputSchemas ++ [(typeSpecDef.id, schema1)] }
    (RefSchema schema1.Name, schema1,
      { st3 with toBeRenamedRefURLs := st3.toBeRenamedRefURLs ++ [refFragment schema1.Name] })

/-- Rewrite of one recorded reference URL fragment during the rename pass:
replace the last slash-segment when it names a to-be-renamed schema. -/
def rewriteRefURL (tbr : List (String × String)) (frag : String) : String :=
  let parts := goSplit frag '/'
  let name := parts.getLastD ""
  match lookupStr tbr name with
  | some pkgPath => goJoin (parts.dropLast ++ [renameSchema name pkgPath]) '/'
  | none => frag

/-- The renameRefSchemas method: rename the marked definitions-map entries,
then rewrite every recorded reference URL whose last segment matches. -/
def renameRefSchemas (st : PState) : PState :=
  if st.toBeRenamedSchemas.length = 0 then st
  else
    let st1 := st.toBeRenamedSchemas.foldl
      (fun acc np =>
        match lookupStr acc.definitionsMap np.1 with
        | some schema =>
          { acc with definitionsMap :=
              upsertStr (removeStr acc.definitionsMap np.1) (renameSchema np.1 np.2) schema }
        | none => acc)
      st
    { st1 with toBeRenamedRefURLs :=
        st1.toBeRenamedRefURLs.map (rewriteRefURL st.toBeRenamedSchemas) }



/-! ## Field helpers of the parser -/

/-- Go strings.EqualFold, ASCII case folding. -/
def goEqualFold (a b : String) : Bool :=
  a.data.map Char.toLower = b.data.map Char.toLower

/-- Go strings.TrimSpace. -/
def goTrimSpace (s : String) : String :=
  ⟨((s.data.dropWhile Char.isWhitespace).reverse.dropWhile Char.isWhitespace).reverse⟩

/-- Go strings.SplitN with limit 2 and a one-character separator: split at
the first occurrence only. -/
def goSplitFirst (s : String) (sep : Char) : List String :=
  let pre := s.data.takeWhile (· ≠ sep)
  if pre.length = s.data.length then [s]
  else [⟨pre⟩, ⟨s.data.drop (pre.length + 1)⟩]

/-- Go ast.IsExported: the name starts with an upper-case letter. -/
def astIsExported (name : String) : Bool :=
  match name.data with
  | [] => false
  | c :: _ => c.isUpper

/-- Lookup of reflect.StructTag.Lookup on the modelled tag list. -/
def structTagLookup (tag : List (String × String)) (key : String) : Option String :=
  lookupStr tag key

/-- Lookup of reflect.StructTag.Get on the modelled tag list. -/
def structTagGet (tag : List (String × String)) (key : String) : String :=
  (structTagLookup tag key).getD ""

/-- Modelled stdlib strconv.ParseBool: the accepted spellings. -/
def goParseBool (s : String) : Option Bool :=
  if ["1", "t", "T", "TRUE", "true", "True"].contains s then some true
  else if ["0", "f", "F", "FALSE", "false", "False"].contains s then some false
  else none

/-- Modelled stdlib strconv.ParseFloat validity: a sign, digits, dots and
exponent characters with at least one digit.  Float values are never
computed by the parser, only conversion success matters. -/
def goParseFloatOk (s : String) : Bool :=
  s.data ≠ [] &&
  s.data.all (fun c => c.isDigit || c = '+' || c = '-' || c = '.' || c = 'e' || c = 'E') &&
  s.data.any Char.isDigit

/-- Modelled stdlib strconv.Atoi and ParseInt base 10 via the Lean string
to integer conversion. -/
def goParseInt (s : String) : Option Int :=
  s.toInt?

/-- The toSnakeCase helper: insert an underscore before an upper-case rune
that follows the start and neighbours a lower-case rune, lowering all. -/
def toSnakeCaseAux : Option Char → List Char → List Char
  | _, [] => []
  | prev, c :: rest =>
    let sep :=
      match prev with
      | none => false
      | some p =>
        c.isUpper && ((match rest with | d :: _ => d.isLower | [] => false) || p.isLower)
    (if sep then ['_', c.toLower] else [c.toLower]) ++ toSnakeCaseAux (some c) rest

/-- String-level toSnakeCase. -/
def toSnakeCase (s : String) : String :=
  ⟨toSnakeCaseAux none s.data⟩

/-- The toLowerCamelCase helper: lower every upper-case rune of the leading
upper-case run. -/
def toLowerCamelCaseAux : Bool → List Char → List Char
  | _, [] => []
  | flag, c :: rest =>
    if flag && c.isUpper then c.toLower :: toLowerCamelCaseAux true rest
    else c :: toLowerCamelCaseAux false rest

/-- String-level toLowerCamelCase. -/
def toLowerCamelCase (s : String) : String :=
  ⟨toLowerCamelCaseAux true s.data⟩

/-- The getFieldType helper over the modelled expressions. -/
def getFieldType : AstExpr → Except PErr String
  | .ident name => .ok name
  | .selectorExpr x sel =>
    match getFieldType x with
    | .error e => .error e
    | .ok packageName => .ok (fullTypeName packageName sel)
  | .starExpr x => getFieldType x
  | _ => .error (.msg "unknown field type")

/-- Modelled from the spec: defineType of the missing helpers converts an
enum or default tag value to the typed value of the schema kind. -/
def defineType (schemaType value : String) : Option GoValue × Option PErr :=
  if schemaType = STRING then (some (.strV value), none)
  else if schemaType = NUMBER then
    if goParseFloatOk value then (some (.floatV value), none)
    else (none, some (.msg ("cannot convert " ++ value ++ " to " ++ schemaType)))
  else if schemaType = INTEGER then
    match goParseInt value with
    | some n => (some (.intV n), none)
    | none => (none, some (.msg ("cannot convert " ++ value ++ " to " ++ schemaType)))
  else if schemaType = BOOLEAN then
    match goParseBool value with
    | some b => (some (.boolV b), none)
    | none => (none, some (.msg ("cannot convert " ++ value ++ " to " ++ schemaType)))
  else (none, some (.msg (schemaType ++ " is unsupported type")))

/-- The defineTypeOfExample helper.  The fuel bounds the recursion depth of
the array and object cases (the source nests at most example, element,
atom, so any fuel of at least three is exact). -/
def defineTypeOfExample : Nat → String → String → String → Option GoValue × Option PErr
  | 0, schemaType, _, exampleValue =>
    (none, some (.msg (schemaType ++ " is unsupported type in example value " ++ exampleValue)))
  | fuel + 1, schemaType, arrayType, exampleValue =>
    if schemaType = STRING then (some (.strV exampleValue), none)
    else if schemaType = NUMBER then
      if goParseFloatOk exampleValue then (some (.floatV exampleValue), none)
      else (none, some (.msg ("example value " ++ exampleValue ++ " cannot convert to " ++ schemaType)))
    else if schemaType = INTEGER then
      match goParseInt exampleValue with
      | some n => (some (.intV n), none)
      | none =>
        (none, some (.msg ("example value " ++ exampleValue ++ " cannot convert to " ++ schemaType)))
    else if schemaType = BOOLEAN then
      match goParseBool exampleValue with
      | some b => (some (.boolV b), none)
      | none =>
        (none, some (.msg ("example value " ++ exampleValue ++ " cannot convert to " ++ schemaType)))
    else if schemaType = ARRAY then
      let results := (goSplit exampleValue ',').map fun v =>
        defineTypeOfExample fuel arrayType "" v
      match results.find? fun r => r.2.isSome with
      | some bad => (none, bad.2)
      | none => (some (.arrV (results.filterMap fun r => r.1)), none)
    else if schemaType = OBJECT then
      if arrayType = "" then
        (none, some (.msg (schemaType ++ " is unsupported type in example value " ++ exampleValue)))
      else
        let pairs := (goSplit exampleValue ',').map fun value =>
          let mapData := goSplit value ':'
          if mapData.length = 2 then
            match defineTypeOfExample fuel arrayType "" (mapData.getD 1 "") with
            | (v, none) => Except.ok (mapData.getD 0 "", v)
            | (_, some e) => Except.error e
          else
            Except.error (PErr.msg ("example value " ++ exampleValue ++ " should format: key:value"))
        match pairs.find? fun r => !r.toBool with
        | some (.error e) => (none, some e)
        | _ =>
          (some (.objV (pairs.foldl
            (fun acc r =>
              match r with
              | .ok (k, some v) => upsertStr acc k v
              | .ok (_, none) => acc
              | .error _ => acc)
            [])), none)
    else
      (none, some (.msg (schemaType ++ " is unsupported type in example value " ++ exampleValue)))

/-- Modelled from the spec: BuildCustomSchema of the missing helpers builds
the swaggertype tag override schema from the comma-separated parts. -/
def BuildCustomSchema : List String → Option SpecSchema × Option PErr
  | [] => (none, none)
  | t :: rest =>
    if t = "primitive" then
      match rest with
      | [] => (none, some (.msg "primitive type without a following type"))
      | p :: _ => (some (PrimitiveSchema (TransToValidSchemeType p)), none)
    else if t = "array" then
      match BuildCustomSchema rest with
      | (some s, none) => (some (ArrayProperty (some s)), none)
      | (none, none) => (none, some (.msg "array type without a following type"))
      | (_, some e) => (none, some e)
    else if t = "object" then
      match BuildCustomSchema rest with
      | (some s, none) => (some (MapProperty (some s)), none)
      | (none, none) => (some (PrimitiveSchema OBJECT), none)
      | (_, some e) => (none, some e)
    else (some (PrimitiveSchema (TransToValidSchemeType t)), none)

/-- The naming-strategy switch at the end of getFieldName. -/
def applyNaming (st : PState) (fieldName nameTag : String) : String :=
  if nameTag = "" then
    if st.PropNamingStrategy = SnakeCase then toSnakeCase fieldName
    else if st.PropNamingStrategy = PascalCase then fieldName
    else toLowerCamelCase fieldName
  else nameTag

/-- The getFieldName method: skip unexported and ignored fields, honour the
json tag name and the swaggertype override, then apply the naming strategy. -/
def getFieldName (st : PState) (field : AstField) :
    String × Option SpecSchema × Option PErr :=
  let n0 := field.1.Names.headD ""
  if !astIsExported n0 then ("", none, none)
  else
    match field.1.Tag with
    | none => (applyNaming st n0 "", none, none)
    | some tag =>
      if goEqualFold (structTagGet tag "swaggerignore") "true" then ("", none, none)
      else
        let nameJson := goTrimSpace ((goSplit (structTagGet tag "json") ',').headD "")
        if nameJson = "-" then ("", none, none)
        else
          let typeTag := structTagGet tag "swaggertype"
          if typeTag ≠ "" then
            match BuildCustomSchema (goSplit typeTag ',') with
            | (_, some e) => ("", none, some e)
            | (schemaOpt, none) => (applyNaming st n0 nameJson, schemaOpt, none)
          else (applyNaming st n0 nameJson, none, none)

/-- The getFloatTag helper; the numeric value is carried textually. -/
def getFloatTag (tag : List (String × String)) (tagName : String) :
    Option String × Option PErr :=
  let strValue := structTagGet tag tagName
  if strValue = "" then (none, none)
  else if goParseFloatOk strValue then (some strValue, none)
  else (none, some (.msg ("cannot parse numeric value of " ++ tagName ++ " tag")))

/-- The getIntTag helper. -/
def getIntTag (tag : List (String × String)) (tagName : String) :
    Option Int × Option PErr :=
  let strValue := structTagGet tag tagName
  if strValue = "" then (none, none)
  else
    match goParseInt strValue with
    | some v => (some v, none)
    | none => (none, some (.msg ("cannot parse numeric value of " ++ tagName ++ " tag")))

/-- The GetSchemaTypePath method.  The extra fuel argument bounds the
reference-chasing recursion, which the source bounds only by the absence of
reference cycles in the definitions map. -/
def GetSchemaTypePath (st : PState) : Nat → Option SpecSchema → Nat → Option (List String)
  | 0, _, _ => none
  | _ + 1, none, _ => some []
  | fuel + 1, some schema, depth =>
    if depth = 0 then some []
    else if schema.Ref ≠ "" then
      if goContainsRune schema.Ref '/' then
        let name := (goSplit schema.Ref '/').getLastD ""
        match lookupStr st.definitionsMap name with
        | some s2 => GetSchemaTypePath st fuel (some s2) depth
        | none => some []
      else some []
    else if schema.Type_.length > 0 then
      let t := schema.Type_.headD ""
      if t = ARRAY then
        match GetSchemaTypePath st fuel schema.Items (depth - 1) with
        | none => none
        | some rest => some (t :: rest)
      else if t = OBJECT then
        match schema.AdditionalProperties with
        | some (some sub) =>
          match GetSchemaTypePath st fuel (some sub) (depth - 1) with
          | none => none
          | some rest => some (t :: rest)
        | _ => some [t]
      else some [t]
    else some [ANY]

/-- The structField record the tag parser fills (source name structField). -/
structure structField where
  desc : String := ""
  schemaType : String := ""
  arrayType : String := ""
  formatType : String := ""
  isRequired : Bool := false
  readOnly : Bool := false
  exampleValue : Option GoValue := none
  maximum : Option String := none
  minimum : Option String := none
  multipleOf : Option String := none
  maxLength : Option Int := none
  minLength : Option Int := none
  enums : List GoValue := []
  defaultValue : Option GoValue := none
  extensions : List (String × GoValue) := []

/-- The parseFieldTag method: fill the structField record from the struct
tag, converting example, enum and default values and collecting bounds;
the first conversion failure aborts with its error. -/
def parseFieldTag (field : AstField) (types : List String) : Except PErr structField :=
  let sf : structField := { schemaType := types.headD "" }
  let sf :=
    if types.length > 1 ∧ (sf.schemaType = ARRAY ∨ sf.schemaType = OBJECT) then
      { sf with arrayType := types.getD 1 "" }
    else sf
  let sf := { sf with desc := goTrimSpace field.1.Doc }
  let sf :=
    if sf.desc = "" ∧ field.1.Comment ≠ "" then
      { sf with desc := goTrimSpace field.1.Comment }
    else sf
  match field.1.Tag with
  | none => .ok sf
  | some tag =>
    let jsonTag := structTagGet tag "json"
    let exampleTag := structTagGet tag "example"
    let exampleRes : Except PErr structField :=
      if exampleTag ≠ "" then
        if goContains jsonTag ",string" then
          .ok { sf with exampleValue := some (.strV exampleTag) }
        else
          match defineTypeOfExample 4 sf.schemaType sf.arrayType exampleTag with
          | (_, some e) => .error e
          | (v, none) => .ok { sf with exampleValue := v }
      else .ok sf
    match exampleRes with
    | .error e => .error e
    | .ok sf =>
      let formatTag := structTagGet tag "format"
      let sf := if formatTag ≠ "" then { sf with formatType := formatTag } else sf
      let bindingTag := structTagGet tag "binding"
      let sf :=
        if bindingTag ≠ "" ∧ (goSplit bindingTag ',').any (fun val => val = "required") then
          { sf with isRequired := true }
        else sf
      let validateTag := structTagGet tag "validate"
      let sf :=
        if validateTag ≠ "" ∧ (goSplit validateTag ',').any (fun val => val = "required") then
          { sf with isRequired := true }
        else sf
      let extensionsTag := structTagGet tag "extensions"
      let extList : List (String × GoValue) :=
        (goSplit extensionsTag ',').foldl
          (fun acc val =>
            let parts := goSplitFirst val '='
            if parts.length = 2 then
              upsertStr acc (parts.getD 0 "") (.strV (parts.getD 1 ""))
            else
              let p0 := parts.getD 0 ""
              if p0.length > 0 ∧ p0.data.headD ' ' = '!' then
                upsertStr acc (⟨p0.data.drop 1⟩ : String) (.boolV false)
              else upsertStr acc p0 (.boolV true))
          []
      let sf :=
        if extensionsTag ≠ "" then { sf with extensions := extList }
        else sf
      let enumsTag := structTagGet tag "enums"
      let enumsRes : Except PErr structField :=
        if enumsTag ≠ "" then
          let enumType := if sf.schemaType = ARRAY then sf.arrayType else sf.schemaType
          (goSplit enumsTag ',').foldl
            (fun acc e =>
              match acc with
              | .error err => .error err
              | .ok sfAcc =>
                match defineType enumType e with
                | (_, some err) => .error err
                | (some v, none) => .ok { sfAcc with enums := sfAcc.enums ++ [v] }
                | (none, none) => .ok sfAcc)
            (.ok sf)
        else .ok sf
      match enumsRes with
      | .error e => .error e
      | .ok sf =>
        let defaultTag := structTagGet tag "default"
        let defaultRes : Except PErr structField :=
          if defaultTag ≠ "" then
            match defineType sf.schemaType defaultTag with
            | (_, some err) => .error err
            | (v, none) => .ok { sf with defaultValue := v }
          else .ok sf
        match defaultRes with
        | .error e => .error e
        | .ok sf =>
          let numericRes : Except PErr structField :=
            if IsNumericType sf.schemaType || IsNumericType sf.arrayType then
              match getFloatTag tag "maximum" with
              | (_, some e) => .error e
              | (maxV, none) =>
                match getFloatTag tag "minimum" with
                | (_, some e) => .error e
                | (minV, none) =>
                  match getFloatTag tag "multipleOf" with
                  | (_, some e) => .error e
                  | (mulV, none) =>
                    .ok { sf with maximum := maxV, minimum := minV, multipleOf := mulV }
            else .ok sf
          match numericRes with
          | .error e => .error e
          | .ok sf =>
            let stringRes : Except PErr structField :=
              if sf.schemaType = STRING || sf.arrayType = STRING then
                match getIntTag tag "maxLength" with
                | (_, some e) => .error e
                | (maxL, none) =>
                  match getIntTag tag "minLength" with
                  | (_, some e) => .error e
                  | (minL, none) => .ok { sf with maxLength := maxL, minLength := minL }
              else .ok sf
            match stringRes with
            | .error e => .error e
            | .ok sf =>
              let readOnlyTag := structTagGet tag "readonly"
              let sf :=
                if readOnlyTag ≠ "" then { sf with readOnly := readOnlyTag = "true" }
                else sf
              let sf :=
                if goContains jsonTag ",string" then
                  let defaultValues : List (String × String) :=
                    [(STRING, ""), (INTEGER, "0"), (BOOLEAN, "false"), (NUMBER, "0")]
                  match lookupStr defaultValues sf.schemaType with
                  | some dv =>
                    let sf := { sf with schemaType := STRING }
                    if sf.exampleValue.isNone then
                      { sf with exampleValue := some (.strV dv) }
                    else sf
                  | none => sf
                else sf
              .ok sf

/-- The shared tail of getTypeSchema after a schema is at hand (from the
cache or from ParseDefinition): return the reference form for object
schemas requested as references, the inline schema otherwise.  The
write-back into the parsed-schemas cache models the pointer aliasing of
the source, whose getRefTypeSchema rename mutates the cached record. -/
def getTypeSchemaTail (st : PState) (typeSpecDef : TypeSpecDef) (schema : Schema)
    (ref : Bool) : Option ((Option SpecSchema × Option PErr) × PState) :=
  if ref then
    match schema.SchemaS with
    | none => none
    | some ss =>
      if ss.Type_.length > 0 ∧ ss.Type_.headD "" = OBJECT then
        let res := getRefTypeSchema st typeSpecDef schema
        some ((some res.1, none), writeParsed res.2.2 typeSpecDef.id res.2.1)
      else some ((some ss, none), st)
  else some ((schema.SchemaS, none), st)

mutual

/-- The getTypeSchema method: primitives and alias-of-primitive types map
directly; otherwise the type specification is looked up and parsed, with
the recursion signal diverted to reference handling when the caller asked
for a reference.  The fuel argument makes the mutual recursion a total
function; none models a panic or exhausted fuel. -/
def getTypeSchema (fuel : Nat) (env : List (String × TypeSpecDef)) (st : PState)
    (typeName : String) (ref : Bool) :
    Option ((Option SpecSchema × Option PErr) × PState) :=
  match fuel with
  | 0 => none
  | fuel + 1 =>
    if IsGolangPrimitiveType typeName then
      some ((some (PrimitiveSchema (TransToValidSchemeType typeName)), none), st)
    else
      let conv := convertFromSpecificToPrimitive typeName
      if conv.2 = none then some ((some (PrimitiveSchema conv.1), none), st)
      else
        match FindTypeSpec typeName env with
        | none =>
          some ((none, some (.msg ("cannot find type definition: " ++ typeName))), st)
        | some typeSpecDef =>
          match lookupNat st.parsedSchemas typeSpecDef.id with
          | some schema => getTypeSchemaTail st typeSpecDef schema ref
          | none =>
            match ParseDefinition fuel env st typeSpecDef with
            | none => none
            | some ((schemaOpt, some err), st1) =>
              if err = PErr.recursiveParseStruct ∧ ref then
                match schemaOpt with
                | none => none
                | some schema =>
                  let res := getRefTypeSchema st1 typeSpecDef schema
                  some ((some res.1, none), res.2.2)
              else some ((none, some err), st1)
            | some ((some schema, none), st1) => getTypeSchemaTail st1 typeSpecDef schema ref
            | some ((none, none), _) => none

/-- The ParseDefinition method: cache hit, recursion detection with the
placeholder signal, push onto the struct stack, parse of the type
expression, then cache fill and the update of an empty definitions entry
left by recursion. -/
def ParseDefinition (fuel : Nat) (env : List (String × TypeSpecDef)) (st : PState)
    (typeSpecDef : TypeSpecDef) :
    Option ((Option Schema × Option PErr) × PState) :=
  match fuel with
  | 0 => none
  | fuel + 1 =>
    let typeName := TypeSpecDefFullName typeSpecDef
    let refTypeName := TypeDocName typeName typeSpecDef
    match lookupNat st.parsedSchemas typeSpecDef.id with
    | some schema => some ((some schema, none), st)
    | none =>
      if isInStructStack st typeSpecDef then
        some ((some { Name := refTypeName, PkgPath := typeSpecDef.PkgPath,
                      SchemaS := some (PrimitiveSchema OBJECT) },
               some PErr.recursiveParseStruct), st)
      else
        let st1 := { st with structStack := st.structStack ++ [typeSpecDef] }
        match parseTypeExpr fuel env st1 typeSpecDef.typeExpr false with
        | none => none
        | some ((_, some err), st2) => some ((none, some err), st2)
        | some ((some defn, none), st2) =>
          let s : Schema :=
            { Name := refTypeName, PkgPath := typeSpecDef.PkgPath, SchemaS := some defn }
          let st3 := writeParsed st2 typeSpecDef.id s
          match lookupNat st3.outputSchemas typeSpecDef.id with
          | some s2 =>
            some ((some s, none),
              { st3 with definitionsMap := upsertStr st3.definitionsMap s2.Name defn })
          | none => some ((some s, none), st3)
        | some ((none, none), _) => none

/-- The parseTypeExpr method: dispatch on the shape of the type
expression. -/
def parseTypeExpr (fuel : Nat) (env : List (String × TypeSpecDef)) (st : PState)
    (typeExpr : AstExpr) (ref : Bool) :
    Option ((Option SpecSchema × Option PErr) × PState) :=
  match fuel with
  | 0 => none
  | fuel + 1 =>
    match typeExpr with
    | .interfaceType => some ((some emptySpecSchema, none), st)
    | .structType fields => parseStructGo fuel env st [] [] fields
    | .ident name => getTypeSchema fuel env st name ref
    | .starExpr x => parseTypeExpr fuel env st x ref
    | .selectorExpr x sel =>
      match x with
      | .ident pkgName => getTypeSchema fuel env st (fullTypeName pkgName sel) ref
      | _ => some ((some (PrimitiveSchema OBJECT), none), st)
    | .arrayType elt =>
      match parseTypeExpr fuel env st elt true with
      | none => none
      | some ((_, some err), st1) => some ((none, some err), st1)
      | some ((itemOpt, none), st1) => some ((some (ArrayProperty itemOpt), none), st1)
    | .mapType value =>
      match value with
      | .interfaceType => some ((some (MapProperty none), none), st)
      | _ =>
        match parseTypeExpr fuel env st value true with
        | none => none
        | some ((_, some err), st1) => some ((none, some err), st1)
        | some ((subOpt, none), st1) => some ((some (MapProperty subOpt), none), st1)
    | .funcType => some ((none, some PErr.funcTypeField), st)
    | .otherExpr => some ((some (PrimitiveSchema OBJECT), none), st)

/-- The field loop of parseStruct, accumulating the required list and the
properties map; a func-typed field is skipped, any other error aborts. -/
def parseStructGo (fuel : Nat) (env : List (String × TypeSpecDef)) (st : PState)
    (required : List String) (properties : List (String × SpecSchema))
    (fields : List AstField) :
    Option ((Option SpecSchema × Option PErr) × PState) :=
  match fuel with
  | 0 => none
  | fuel + 1 =>
    match fields with
    | [] =>
      some ((some { emptySpecSchema with
              Type_ := [OBJECT], Properties := properties,
              Required := sortStrings required }, none), st)
    | field :: rest =>
      match parseStructField fuel env st field with
      | none => none
      | some ((_, _, some err), st1) =>
        if err = PErr.funcTypeField then parseStructGo fuel env st1 required properties rest
        else some ((none, some err), st1)
      | some ((props, reqs, none), st1) =>
        if props.length = 0 then parseStructGo fuel env st1 required properties rest
        else
          parseStructGo fuel env st1 (required ++ reqs)
            (props.foldl (fun acc kv => upsertStr acc kv.1 kv.2) properties) rest

/-- The parseStructField method: anonymous embedded fields inline their
object properties; named fields resolve their type (as a reference when
named), read the tag directives and emit one property. -/
def parseStructField (fuel : Nat) (env : List (String × TypeSpecDef)) (st : PState)
    (field : AstField) :
    Option ((List (String × SpecSchema) × List String × Option PErr) × PState) :=
  match fuel with
  | 0 => none
  | fuel + 1 =>
    match field.1.Names with
    | [] =>
      let skip :=
        match field.1.Tag with
        | some tag =>
          match structTagLookup tag "swaggerignore" with
          | some v => goEqualFold v "true"
          | none => false
        | none => false
      if skip then some (([], [], none), st)
      else
        match getFieldType field.2 with
        | .error e => some (([], [], some e), st)
        | .ok typeName =>
          match getTypeSchema fuel env st typeName false with
          | none => none
          | some ((_, some err), st1) => some (([], [], some err), st1)
          | some ((none, none), _) => none
          | some ((some schema, none), st1) =>
            if schema.Type_.length > 0 ∧ schema.Type_.headD "" = OBJECT then
              if schema.Properties.length = 0 then some (([], [], none), st1)
              else some ((schema.Properties, schema.Required, none), st1)
            else some (([(typeName, schema)], [], none), st1)
    | n0 :: _ =>
      match getFieldName st field with
      | (_, _, some e) => some (([], [], some e), st)
      | (fieldName, customSchema, none) =>
        if fieldName = "" then some (([], [], none), st)
        else
          let resolved : Option ((Option SpecSchema × Option PErr) × PState) :=
            match customSchema with
            | some cs => some ((some cs, none), st)
            | none =>
              match getFieldType field.2 with
              | .ok typeName => getTypeSchema fuel env st typeName true
              | .error _ => parseTypeExpr fuel env st field.2 false
          match resolved with
          | none => none
          | some ((_, some err), st1) => some (([], [], some err), st1)
          | some ((schemaOpt, none), st1) =>
            match GetSchemaTypePath st1 fuel schemaOpt 2 with
            | none => none
            | some types =>
              if types.length = 0 then
                some (([], [], some (.msg ("invalid type for field: " ++ n0))), st1)
              else
                match parseFieldTag field types with
                | .error e => some (([], [], some e), st1)
                | .ok sf =>
                  let schemaBase : Option SpecSchema :=
                    if sf.schemaType = STRING ∧ types.headD "" ≠ sf.schemaType then
                      some (PrimitiveSchema sf.schemaType)
                    else schemaOpt
                  match schemaBase with
                  | none => none
                  | some schema2 =>
                    let schema3 :=
                      { schema2 with
                        Description := sf.desc
                        ReadOnly := sf.readOnly
                        Default := sf.defaultValue
                        Example := sf.exampleValue }
                    let schema4 :=
                      if sf.schemaType ≠ ARRAY then { schema3 with Format := sf.formatType }
                      else schema3
                    let schema5 := { schema4 with Extensions := sf.extensions }
                    let tagRequired := if sf.isRequired then [fieldName] else []
                    if sf.schemaType = ARRAY then
                      match schema5.Items with
                      | none => none
                      | some item =>
                        let item1 :=
                          { item with
                            Format := sf.formatType
                            Maximum := sf.maximum
                            Minimum := sf.minimum
                            MultipleOf := sf.multipleOf
                            MaxLength := sf.maxLength
                            MinLength := sf.minLength
                            Enum := sf.enums }
                        some (([(fieldName, { schema5 with Items := some item1 })],
                               tagRequired, none), st1)
                    else
                      let schema6 :=
                        { schema5 with
                          Maximum := sf.maximum
                          Minimum := sf.minimum
                          MultipleOf := sf.multipleOf
                          MaxLength := sf.maxLength
                          MinLength := sf.minLength
                          Enum := sf.enums }
                      some (([(fieldName, schema6)], tagRequired, none), st1)

end

/-- The parseStruct method: the field loop with empty accumulators. -/
def parseStruct (fuel : Nat) (env : List (String × TypeSpecDef)) (st : PState)
    (fields : List AstField) :
    Option ((Option SpecSchema × Option PErr) × PState) :=
  parseStructGo fuel env st [] [] fields



/-! ## Route and method assignment of the document assembler -/

/-- The seven method slots of spec.PathItem the route assembler writes;
operations are identified by a numeric token standing for the Go pointer. -/
structure PathItem where
  Get : Option Nat
  Put : Option Nat
  Post : Option Nat
  Delete : Option Nat
  Options : Option Nat
  Head : Option Nat
  Patch : Option Nat
deriving DecidableEq, Repr

/-- The zero spec.PathItem value. -/
def emptyPathItem : PathItem :=
  ⟨none, none, none, none, none, none, none⟩

/-- The setRouteMethodOp helper: store the operation under the slot of the
upper-cased method; unknown methods store nothing. -/
def setRouteMethodOp (pathItem : PathItem) (method : String) (op : Nat) : PathItem :=
  let m := goToUpper method
  if m = "GET" then { pathItem with Get := some op }
  else if m = "POST" then { pathItem with Post := some op }
  else if m = "DELETE" then { pathItem with Delete := some op }
  else if m = "PUT" then { pathItem with Put := some op }
  else if m = "PATCH" then { pathItem with Patch := some op }
  else if m = "HEAD" then { pathItem with Head := some op }
  else if m = "OPTIONS" then { pathItem with Options := some op }
  else pathItem

/-- The hasRouteMethodOp helper: whether the slot of the upper-cased method
already holds an operation. -/
def hasRouteMethodOp (pathItem : PathItem) (method : String) : Bool :=
  let m := goToUpper method
  if m = "GET" then pathItem.Get.isSome
  else if m = "POST" then pathItem.Post.isSome
  else if m = "DELETE" then pathItem.Delete.isSome
  else if m = "PUT" then pathItem.Put.isSome
  else if m = "PATCH" then pathItem.Patch.isSome
  else if m = "HEAD" then pathItem.Head.isSome
  else if m = "OPTIONS" then pathItem.Options.isSome
  else false

/-- Verification helper: read the slot of the upper-cased method. -/
def routeMethodOp (pathItem : PathItem) (method : String) : Option Nat :=
  let m := goToUpper method
  if m = "GET" then pathItem.Get
  else if m = "POST" then pathItem.Post
  else if m = "DELETE" then pathItem.Delete
  else if m = "PUT" then pathItem.Put
  else if m = "PATCH" then pathItem.Patch
  else if m = "HEAD" then pathItem.Head
  else if m = "OPTIONS" then pathItem.Options
  else none

/-- Log lines of the route insertion (debug.Printf of the parser). -/
inductive ParserLog where
  | warnDuplicateRoute (method path : String)
deriving DecidableEq, Repr

/-- One route insertion of the GinSwagger assembly loop (also the body of
ParseRouterAPIInfo): fetch or create the path item, error in strict mode on
a duplicate (warn otherwise), set the method slot, store the path item. -/
def insertRouteOp (strict : Bool) (paths : List (String × PathItem))
    (logs : List ParserLog) (path method : String) (op : Nat) :
    Except (String × String) (List (String × PathItem) × List ParserLog) :=
  let pathItem :=
    match lookupStr paths path with
    | some pi => pi
    | none => emptyPathItem
  if hasRouteMethodOp pathItem method then
    if strict then .error (method, path)
    else
      .ok (upsertStr paths path (setRouteMethodOp pathItem method op),
           logs ++ [ParserLog.warnDuplicateRoute method path])
  else
    .ok (upsertStr paths path (setRouteMethodOp pathItem method op), logs)

/-! ## A registration driver for the schema registry

The driver feeds getRefTypeSchema the same Schema records the resolver
builds for named object types: a fresh record carrying the display name
assigned by TypeDocName on first registration, the record already stored in
outputSchemas afterwards (the source passes the same pointer again). -/

/-- The Schema record getRefTypeSchema receives for a type: the stored one
when the type is already registered, a fresh object schema otherwise. -/
def regSchemaFor (st : PState) (t : TypeSpecDef) : Schema :=
  match lookupNat st.outputSchemas t.id with
  | some s => s
  | none =>
    { Name := TypeDocName (TypeSpecDefFullName t) t, PkgPath := t.PkgPath,
      SchemaS := some (PrimitiveSchema OBJECT) }

/-- Registration of a sequence of named object types as references. -/
def processRegs : PState → List TypeSpecDef → PState
  | st, [] => st
  | st, t :: rest => processRegs (getRefTypeSchema st t (regSchemaFor st t)).2.2 rest



/-! ## Statement-level helpers and concrete instances -/

/-- A comment the classification chain routes to the success slot: it
reaches the response branch (no earlier branch matched) and carries the
Success prefix. -/
def isSuccessSlotComment (c : String) : Bool :=
  !commentSummaryRegExpMatch c && !commentDiscriptionRegExpMatch c &&
  !commentParamRegExpMatch c && commentResponseRegExpMatch c &&
  goHasPrefix c "// @Success"

/-- A comment the classification chain routes to the response slot. -/
def isResponseSlotComment (c : String) : Bool :=
  !commentSummaryRegExpMatch c && !commentDiscriptionRegExpMatch c &&
  !commentParamRegExpMatch c && commentResponseRegExpMatch c &&
  !goHasPrefix c "// @Success" && !goHasPrefix c "// @Failure" &&
  goHasPrefix c "// @Response"

/-- A comment the classification chain routes to the accept slot. -/
def isAcceptSlotComment (c : String) : Bool :=
  !commentSummaryRegExpMatch c && !commentDiscriptionRegExpMatch c &&
  !commentParamRegExpMatch c && !commentResponseRegExpMatch c &&
  !commentHeaderRegExpMatch c && commentMimeRegExpMatch c &&
  goHasPrefix c "// @Accept"

/-- A comment the classification chain routes to the produce slot. -/
def isProduceSlotComment (c : String) : Bool :=
  !commentSummaryRegExpMatch c && !commentDiscriptionRegExpMatch c &&
  !commentParamRegExpMatch c && !commentResponseRegExpMatch c &&
  !commentHeaderRegExpMatch c && commentMimeRegExpMatch c &&
  !goHasPrefix c "// @Accept" && goHasPrefix c "// @Produce"

/-- A comment the classification chain routes to the router slot. -/
def isRouterSlotComment (c : String) : Bool :=
  !commentSummaryRegExpMatch c && !commentDiscriptionRegExpMatch c &&
  !commentParamRegExpMatch c && !commentResponseRegExpMatch c &&
  !commentHeaderRegExpMatch c && !commentMimeRegExpMatch c &&
  commentRouterRegExpMatch c

/-- A bind call that crashes comment generation: ShouldBindJSON or
ShouldBindQuery with exactly one recorded argument whose type string has no
slash, so the generator reads the missing second argument. -/
def oneArgBindCall (e : ExprItem) : Bool :=
  (e.Receiver ++ "." ++ e.Name = "*github.com/gin-gonic/gin.Context.ShouldBindJSON" ||
   e.Receiver ++ "." ++ e.Name = "*github.com/gin-gonic/gin.Context.ShouldBindQuery") &&
  (match e.Args with
   | [a] => !goContainsRune a.Type_ '/'
   | _ => false)

/-- The sorted comment list of a GetGinComments run, empty on a panic. -/
def resultsOf (o : Option (List String × List GinLog)) : List String :=
  (o.map Prod.fst).getD []

/-- The log list of a GetGinComments run, empty on a panic. -/
def logsOf (o : Option (List String × List GinLog)) : List GinLog :=
  (o.map Prod.snd).getD []

/-- Whether a resolver result is a normal return carrying the recursive
parse signal. -/
def isRecursiveErrReturn (r : Option ((Option SpecSchema × Option PErr) × PState)) : Bool :=
  match r with
  | some ((_, some PErr.recursiveParseStruct), _) => true
  | _ => false

/-- The struct stack of the state a ParseDefinition run returns, by type
identities; none on a panic. -/
def finalStack (r : Option ((Option Schema × Option PErr) × PState)) : Option (List Nat) :=
  r.map fun x => x.2.structStack.map fun t => t.id

/-- The display name registered for a type identity. -/
def outputName (st : PState) (i : Nat) : Option String :=
  (lookupNat st.outputSchemas i).map fun s => s.Name

/-- The placeholder Schema record ParseDefinition returns together with the
recursion signal. -/
def placeholderSchema (t : TypeSpecDef) : Schema :=
  { Name := TypeDocName (TypeSpecDefFullName t) t, PkgPath := t.PkgPath,
    SchemaS := some (PrimitiveSchema OBJECT) }

/-! Specification-level name assignment used to state the registry claims. -/

/-- The scope-qualified name of a type with separators normalized, the
target renameSchema computes for bare names. -/
def normalizedFullName (t : TypeSpecDef) : String :=
  goReplaceChar (t.PkgPath ++ "." ++ t.Name) '/' '_'

/-- The first registration carrying a bare name. -/
def firstWithBare (regs : List TypeSpecDef) (b : String) : Option TypeSpecDef :=
  regs.find? fun t => t.Name = b

/-- Whether at least two registrations share a bare name. -/
def collidedBare (regs : List TypeSpecDef) (b : String) : Bool :=
  2 ≤ (regs.filter fun t => t.Name = b).length

/-- The name the registry assigns at registration time: the bare name for
the first type of that bare name, the normalized scope-qualified name for
every later one. -/
def assignedName (regs : List TypeSpecDef) (t : TypeSpecDef) : String :=
  match firstWithBare regs t.Name with
  | some f => if f.id = t.id then t.Name else renameSchema t.Name t.PkgPath
  | none => t.Name

/-- The final name of a registration after the rename pass: qualified and
normalized whenever its bare name collided, bare otherwise. -/
def resolvedFinalName (regs : List TypeSpecDef) (t : TypeSpecDef) : String :=
  if collidedBare regs t.Name then renameSchema t.Name t.PkgPath else t.Name

/-- A registration the rename machinery is designed for: nonempty bare
name without dot or slash, nonempty package path. -/
def goodReg (t : TypeSpecDef) : Prop :=
  t.Name ≠ "" ∧ t.PkgPath ≠ "" ∧
  goContainsRune t.Name '.' = false ∧ goContainsRune t.Name '/' = false

/-! Concrete instances. -/

/-- Mutually recursive alias A of the counterexample environment. -/
def aliasA : TypeSpecDef := { id := 1, Name := "A", PkgPath := "p", typeExpr := .ident "B" }

/-- Mutually recursive alias B of the counterexample environment. -/
def aliasB : TypeSpecDef := { id := 2, Name := "B", PkgPath := "p", typeExpr := .ident "A" }

/-- The two-alias environment: type A is B, type B is A. -/
def aliasEnv : List (String × TypeSpecDef) := [("A", aliasA), ("B", aliasB)]

/-- A state whose in-progress stack already holds alias A. -/
def stackedState : PState := { emptyPState with structStack := [aliasA] }

/-- An interface type specification for the stack counterexample. -/
def ifaceT : TypeSpecDef := { id := 7, Name := "T", PkgPath := "p", typeExpr := .interfaceType }

/-- The one-type environment of the stack counterexample. -/
def ifaceEnv : List (String × TypeSpecDef) := [("T", ifaceT)]

/-- The result value of the stack counterexample run. -/
def c2RunOut : Option Schema × Option PErr :=
  match ParseDefinition 5 ifaceEnv emptyPState ifaceT with
  | some (out, _) => out
  | none => (none, none)

/-- The result state of the stack counterexample run. -/
def c2RunState : PState :=
  match ParseDefinition 5 ifaceEnv emptyPState ifaceT with
  | some (_, st') => st'
  | none => emptyPState

/-- First Item type, package p. -/
def itemFirst : TypeSpecDef :=
  { id := 1, Name := "Item", PkgPath := "p", typeExpr := .interfaceType }

/-- Second Item type, package a/b: its normalized name is a_b.Item. -/
def itemSlash : TypeSpecDef :=
  { id := 2, Name := "Item", PkgPath := "a/b", typeExpr := .interfaceType }

/-- Third Item type, package a_b: its normalized name is also a_b.Item. -/
def itemUnder : TypeSpecDef :=
  { id := 3, Name := "Item", PkgPath := "a_b", typeExpr := .interfaceType }

/-- Registration run of the three colliding Item types, rename pass done. -/
def collisionRun : PState :=
  renameRefSchemas (processRegs emptyPState [itemFirst, itemSlash, itemUnder])

/-- A well-behaved two-type collision for the registry witness. -/
def benignRegs : List TypeSpecDef := [itemFirst, itemSlash]

/-- Operation with an explicit parameter annotation and a call site
reading the same path parameter. -/
def fdDupParam : FunctionDesc :=
  { Name := "GetItem", PackageName := "pkg.GetItem",
    Comments := ["// @Param id path string true \"id\""],
    Exprs := [{ Receiver := "*github.com/gin-gonic/gin.Context", Name := "Param",
                Args := [{ Name := "\"id\"", Type_ := "string", Value := "\"id\"" }] }] }

/-- Operation binding its body with a one-argument ShouldBindJSON call
whose recorded type has no slash. -/
def fdBindPanic : FunctionDesc :=
  { Name := "Greating", PackageName := "main.Greating",
    Comments := [],
    Exprs := [{ Receiver := "*github.com/gin-gonic/gin.Context", Name := "ShouldBindJSON",
                Args := [{ Name := "&request", Type_ := "models.GreatingRequest",
                           Value := "" }] }] }

/-- Operation with a router declaration fully consistent with its route
and call sites. -/
def fdRouterOk : FunctionDesc :=
  { Name := "GetItem", PackageName := "pkg.GetItem",
    Comments := ["// @Router /items/\x7bid\x7d [get] pkg.GetItem"],
    Exprs := [{ Receiver := "*github.com/gin-gonic/gin.Context", Name := "Param",
                Args := [{ Name := "\"id\"", Type_ := "string", Value := "\"id\"" }] }] }

/-- The registered route matching fdRouterOk. -/
def routeInfosOk : List (String × RouteInfo) :=
  [("pkg.GetItem", { Method := "GET", Path := "/items/:id" })]

/-- The router-slot state used to exercise the route check directly. -/
def c4DescW : GinSwagger :=
  { initGinSwagger fdRouterOk with
      router := "// @Router /items/\x7bid\x7d [get] pkg.GetItem" }

/-- Operation with an explicit summary different from its identifier. -/
def fdSummary : FunctionDesc :=
  { Name := "Greating", PackageName := "main.Greating",
    Comments := ["// @Summary SayHello", "// @Accept json"],
    Exprs := [] }

/-- Operation carrying two success annotations. -/
def fdDupSuccess : FunctionDesc :=
  { Name := "F", PackageName := "main.F",
    Comments := ["// @Success 200 \x7bobject\x7d A", "// @Success 201 \x7bobject\x7d B"],
    Exprs := [] }

/-- A JSON response call with status 201 for the response-slot witness. -/
def exprJSON201 : ExprItem :=
  { Receiver := "*github.com/gin-gonic/gin.Context", Name := "JSON",
    Args := [{ Name := "201", Type_ := "int", Value := "201" },
             { Name := "resp", Type_ := "models.Resp", Value := "" }] }

/-- A path map holding one GET operation, for the duplicate-route witness. -/
def pathsWithGet : List (String × PathItem) :=
  [("/x", { emptyPathItem with Get := some 1 })]



/-! # Theorems -/

/-- Claim C3, counterexample: the claim says each single-valued slot keeps
the first matching occurrence, but after parsing two success comments the
success slot holds the second, not the first. -/
theorem c3_counterexample :
    (parseComments (initGinSwagger fdDupSuccess)).success ≠
      "// @Success 200 \x7bobject\x7d A" ∧
    (parseComments (initGinSwagger fdDupSuccess)).success =
      "// @Success 201 \x7bobject\x7d B" := by
  decide

/-- Claim C7, code bug: the parameter the author explicitly annotated with
an at-Param comment is emitted twice, because the comment regular
expression only recognises the marker at-Params (trailing s) and so the
explicit annotation never reaches the params bucket that appendParam
checks; the generator for the path parameter read at the call site appends
an inferred duplicate of the very same line. -/
theorem c7_param_duplicated :
    (resultsOf (GetGinComments fdDupParam [])).count
      "// @Param id path string true \"id\"" = 2 := by
  decide

/-- Claim C9, counterexample: the claim says a summary is synthesized only
when no explicit summary exists and is placed first in the emitted list;
here an explicit summary exists yet a summary is synthesized from the
identifier, and the emitted (sorted) list starts with the accept line, not
with the synthesized summary. -/
theorem c9_counterexample :
    resultsOf (GetGinComments fdSummary []) =
      ["// @Accept json", "// @Summary Greating", "// @Summary SayHello"] := by
  decide

/-- Claim C4, counterexample: the operation declares a router comment fully
consistent with the registered route and with the path parameter its body
reads, yet the generator logs a parameter mismatch (the captured set it
compares against is never populated) and returns normally; no hard error
exists on any mismatch, strict or not. -/
theorem c4_counterexample :
    (GetGinComments fdRouterOk routeInfosOk).isSome = true ∧
    logsOf (GetGinComments fdRouterOk routeInfosOk) =
      [GinLog.errParamsMismatch "// @Router /items/\x7bid\x7d [get] pkg.GetItem"
        "/items/:id"] := by
  decide

/-- Claim C1, counterexample: on the mutually recursive aliases A and B,
the resolution request with asReference false returns the recursive-parse
signal to its caller, and the request with asReference true crashes on the
nil placeholder instead of receiving a placeholder schema. -/
theorem c1_counterexample :
    isRecursiveErrReturn (getTypeSchema 10 aliasEnv emptyPState "A" false) = true ∧
    (getTypeSchema 10 aliasEnv emptyPState "A" true).isNone = true := by
  decide

/-- Claim C2, counterexample: after a successful ParseDefinition of a
simple interface type the pushed type is still on the struct stack, so the
stack is not popped on the success exit path. -/
theorem c2_counterexample :
    finalStack (ParseDefinition 5 ifaceEnv emptyPState ifaceT) = some [7] ∧
    some [7] ≠ (some ([] : List Nat)) := by
  decide

/-- Claim C5, counterexample: three types named Item from packages p, a/b
and a_b are registered; the slash-to-underscore normalization maps the last
two to the same name a_b.Item, so after the rename pass two distinct type
identities share one definitions entry (two entries for three types). -/
theorem c5_counterexample :
    outputName collisionRun 2 = some "a_b.Item" ∧
    outputName collisionRun 3 = some "a_b.Item" ∧
    (2 : Nat) ≠ 3 ∧
    collisionRun.definitionsMap.length = 2 := by
  decide



/-- Splitting a list free of the separator yields the single field. -/
theorem goSplitChar_no_sep {l : List Char} {sep : Char} (h : l.contains sep = false) :
    goSplitChar l sep = [l] := by
  induction l with
  | nil => rfl
  | cons c rest ih =>
    simp only [List.contains_cons, Bool.or_eq_false_iff] at h
    obtain ⟨h1, h2⟩ := h
    have hrest := ih h2
    rw [goSplitChar, hrest]
    have hne : ¬ c = sep := by
      intro hc
      subst hc
      simp at h1
    rw [if_neg hne]

/-- A slash-free string splits on slash into one field. -/
theorem goSplit_no_slash {s : String} (h : goContainsRune s '/' = false) :
    goSplit s '/' = [⟨s.data⟩] := by
  unfold goSplit
  rw [goSplitChar_no_sep h]
  rfl

/-- The expression step crashes on a one-argument bind call whose recorded
type has no slash: the generator indexes the missing second argument. -/
theorem exprStep_oneArgBind (st : GinSwagger × List GinLog) (e : ExprItem)
    (h : oneArgBindCall e = true) : exprStep st e = none := by
  unfold oneArgBindCall at h
  rw [Bool.and_eq_true, Bool.or_eq_true] at h
  obtain ⟨hsel, hargs⟩ := h
  cases harg : e.Args with
  | nil => rw [harg] at hargs; simp at hargs
  | cons a tail =>
    cases tail with
    | cons b rest => rw [harg] at hargs; simp at hargs
    | nil =>
      rw [harg] at hargs
      simp only [Bool.not_eq_true'] at hargs
      have hsplit : goSplit a.Type_ '/' = [⟨a.Type_.data⟩] := goSplit_no_slash hargs
      rcases hsel with hsel | hsel <;> simp only [decide_eq_true_eq] at hsel <;>
        simp only [exprStep, respSwitch, paramSwitch, hsel, harg, hsplit,
          List.length_cons, List.length_nil, String.reduceEq, reduceIte,
          List.getElem?_cons_zero, List.getElem?_cons_succ, List.getElem?_nil,
          or_true, true_or, or_self, if_true, if_false, List.length_singleton] <;>
        norm_num <;>
        (intro hlen; exact absurd (by rw [hsplit]; rfl) hlen)

/-- The expressions loop crashes whenever it contains a crashing bind
call. -/
theorem exprsLoop_oneArgBind (exprs : List ExprItem) (st : GinSwagger × List GinLog)
    (e : ExprItem) (he : e ∈ exprs) (h : oneArgBindCall e = true) :
    exprsLoop st exprs = none := by
  induction exprs generalizing st with
  | nil => cases he
  | cons e1 rest ih =>
    rcases List.mem_cons.mp he with he | he
    · subst he
      simp [exprsLoop, exprStep_oneArgBind st e h]
    · unfold exprsLoop
      cases hstep : exprStep st e1 with
      | none => rfl
      | some st1 => exact ih st1 he

/-- The comment classification never changes the inspected expressions. -/
theorem parseCommentStep_Exprs (st : GinSwagger) (c : String) :
    (parseCommentStep st c).Exprs = st.Exprs := by
  unfold parseCommentStep
  split_ifs <;> rfl

/-- Parsing the comments never changes the inspected expressions. -/
theorem parseComments_Exprs (desc : GinSwagger) :
    (parseComments desc).Exprs = desc.Exprs := by
  unfold parseComments
  generalize desc.Comments = cs
  induction cs generalizing desc with
  | nil => rfl
  | cons c rest ih =>
    simp only [List.foldl_cons]
    rw [ih (parseCommentStep desc c), parseCommentStep_Exprs]

/-- Summary synthesis never changes the inspected expressions. -/
theorem summarySynthesis_Exprs (desc : GinSwagger) :
    (summarySynthesis desc).Exprs = desc.Exprs := by
  cases h : desc.summaries.any fun summary => summary = "// @Summary " ++ desc.Name <;>
    simp [summarySynthesis, h]

/-- Claim C10, confirmed: whenever a handler body contains a call to
ShouldBindJSON or ShouldBindQuery with one recorded argument whose type
string has no slash separator, GetGinComments reads the missing second
argument and panics (the model returns none) instead of emitting a body or
query parameter comment. -/
theorem c10_bind_panics (funcDesc : FunctionDesc)
    (routeInfos : List (String × RouteInfo))
    (h : ∃ e ∈ funcDesc.Exprs, oneArgBindCall e = true) :
    GetGinComments funcDesc routeInfos = none := by
  obtain ⟨e, he, hbad⟩ := h
  have hex : (summarySynthesis (parseComments (initGinSwagger funcDesc))).Exprs =
      funcDesc.Exprs := by
    rw [summarySynthesis_Exprs, parseComments_Exprs]; rfl
  have hloop := exprsLoop_oneArgBind funcDesc.Exprs
    (summarySynthesis (parseComments (initGinSwagger funcDesc)), []) e he hbad
  simp [GetGinComments, generateComments, hex, hloop]

/-- Witness for claim C10 at the example handler of the repository: a
ShouldBindJSON call with one argument of a type without slash makes the
whole comment generation crash. -/
theorem c10_bind_panics_witness :
    GetGinComments fdBindPanic [] = none :=
  c10_bind_panics fdBindPanic [] (by decide)



/-- Claim C9, amended: a summary is synthesized from the identifier exactly
when no comment equal to the synthesized text is already among the parsed
summaries, and the synthesized summary is prepended to the summaries bucket
(first among the summaries, before the final lexicographic sort of the
whole emitted list). -/
theorem c9_amended (desc : GinSwagger) :
    ((∃ s ∈ desc.summaries, s = "// @Summary " ++ desc.Name) →
      summarySynthesis desc = desc) ∧
    (¬(∃ s ∈ desc.summaries, s = "// @Summary " ++ desc.Name) →
      (summarySynthesis desc).summaries =
        ("// @Summary " ++ desc.Name) :: desc.summaries) := by
  constructor
  · intro hex
    have hany : (desc.summaries.any fun summary =>
        summary = "// @Summary " ++ desc.Name) = true := by
      rw [List.any_eq_true]
      obtain ⟨s, hs, he⟩ := hex
      exact ⟨s, hs, by simp [he]⟩
    simp [summarySynthesis, hany]
  · intro hnex
    have hany : (desc.summaries.any fun summary =>
        summary = "// @Summary " ++ desc.Name) = false := by
      rw [Bool.eq_false_iff]
      intro hc
      rw [List.any_eq_true] at hc
      obtain ⟨s, hs, he⟩ := hc
      exact hnex ⟨s, hs, by simpa using he⟩
    simp [summarySynthesis, hany]

/-- Witness for the amended claim C9: with an explicit summary different
from the synthesized text, the synthesized summary is still prepended. -/
theorem c9_amended_witness :
    (summarySynthesis (parseComments (initGinSwagger fdSummary))).summaries =
      ("// @Summary " ++ (parseComments (initGinSwagger fdSummary)).Name) ::
        (parseComments (initGinSwagger fdSummary)).summaries :=
  (c9_amended (parseComments (initGinSwagger fdSummary))).2 (by decide)

/-- The success slot after one classification step. -/
theorem parseCommentStep_success (st : GinSwagger) (c : String) :
    (parseCommentStep st c).success =
      if isSuccessSlotComment c then c else st.success := by
  unfold parseCommentStep isSuccessSlotComment
  split_ifs <;> simp_all

/-- The response slot after one classification step. -/
theorem parseCommentStep_response (st : GinSwagger) (c : String) :
    (parseCommentStep st c).response =
      if isResponseSlotComment c then c else st.response := by
  unfold parseCommentStep isResponseSlotComment
  split_ifs <;> simp_all

/-- The accept slot after one classification step. -/
theorem parseCommentStep_accept (st : GinSwagger) (c : String) :
    (parseCommentStep st c).accept =
      if isAcceptSlotComment c then c else st.accept := by
  unfold parseCommentStep isAcceptSlotComment
  split_ifs <;> simp_all

/-- The produce slot after one classification step. -/
theorem parseCommentStep_produce (st : GinSwagger) (c : String) :
    (parseCommentStep st c).produce =
      if isProduceSlotComment c then c else st.produce := by
  unfold parseCommentStep isProduceSlotComment
  split_ifs <;> simp_all

/-- The router slot after one classification step. -/
theorem parseCommentStep_router (st : GinSwagger) (c : String) :
    (parseCommentStep st c).router =
      if isRouterSlotComment c then c else st.router := by
  unfold parseCommentStep isRouterSlotComment
  split_ifs <;> simp_all

/-- A single-valued slot of the classification fold holds the last
matching comment (or the initial slot value when none matches). -/
theorem foldl_parseCommentStep_slot (proj : GinSwagger → String) (cls : String → Bool)
    (hstep : ∀ st c, proj (parseCommentStep st c) = if cls c then c else proj st) :
    ∀ (cs : List String) (st : GinSwagger),
      proj (cs.foldl parseCommentStep st) = (cs.filter cls).getLastD (proj st) := by
  intro cs
  induction cs with
  | nil => intro st; rfl
  | cons c cs ih =>
    intro st
    simp only [List.foldl_cons]
    rw [ih, hstep st c]
    by_cases h : cls c
    · rw [if_pos h, List.filter_cons_of_pos h, List.getLastD_cons]
    · rw [if_neg h, List.filter_cons_of_neg h]

/-- Claim C3, amended: after parsing one operation's ordered comment
lines, each of the single-valued accept, produce, success, response and
router slots holds the last matching occurrence in the sequence (the
initial slot value when none matches); earlier occurrences are silently
overwritten, without error. -/
theorem c3_amended (desc : GinSwagger) :
    (parseComments desc).success =
      (desc.Comments.filter isSuccessSlotComment).getLastD desc.success ∧
    (parseComments desc).response =
      (desc.Comments.filter isResponseSlotComment).getLastD desc.response ∧
    (parseComments desc).accept =
      (desc.Comments.filter isAcceptSlotComment).getLastD desc.accept ∧
    (parseComments desc).produce =
      (desc.Comments.filter isProduceSlotComment).getLastD desc.produce ∧
    (parseComments desc).router =
      (desc.Comments.filter isRouterSlotComment).getLastD desc.router := by
  refine ⟨?_, ?_, ?_, ?_, ?_⟩ <;> unfold parseComments
  · exact foldl_parseCommentStep_slot (fun d => d.success) _
      parseCommentStep_success desc.Comments desc
  · exact foldl_parseCommentStep_slot (fun d => d.response) _
      parseCommentStep_response desc.Comments desc
  · exact foldl_parseCommentStep_slot (fun d => d.accept) _
      parseCommentStep_accept desc.Comments desc
  · exact foldl_parseCommentStep_slot (fun d => d.produce) _
      parseCommentStep_produce desc.Comments desc
  · exact foldl_parseCommentStep_slot (fun d => d.router) _
      parseCommentStep_router desc.Comments desc

/-- Claim C4, amended: when an operation declares a router comment with at
least one path placeholder and a registered route matches its handler key,
the route verification logs a parameter-mismatch error and returns early
and normally, whatever the routes that follow; the comparison set the code
uses is a local table that is never populated, so even a fully consistent
declaration is reported, and no hard error exists in this component (its
result type has no error case and no strict-mode input exists). -/
theorem c4_amended (desc : GinSwagger) (logs : List GinLog) (key : String)
    (info : RouteInfo) (rest : List (String × RouteInfo))
    (hkey : goHasSuffix key desc.PackageName = true)
    (hrouter : desc.router.length > 0)
    (hformat : goContainsAny (pathParamReplaceAtAt desc.router)
      (pathParamReplaceAtAt info.Path) = true)
    (hparams : parseQueryPathParams desc.router ≠ []) :
    routeLoop [] (desc, logs) ((key, info) :: rest) =
      (desc, logs ++ [GinLog.errParamsMismatch desc.router info.Path]) := by
  have hlen : (parseQueryPathParams desc.router).length ≠ ([] : List (String × String)).length := by
    simpa using fun hc => hparams (List.length_eq_zero.mp hc)
  simp [routeLoop, hkey, hrouter, hformat, hlen]
  intro hc
  exact absurd hc hparams

/-- Witness for the amended claim C4: a consistent declaration over one
registered route is logged as mismatched and returns normally. -/
theorem c4_amended_witness :
    routeLoop [] (c4DescW, []) (("pkg.GetItem",
        ({ Method := "GET", Path := "/items/:id" } : RouteInfo)) :: []) =
      (c4DescW, [] ++ [GinLog.errParamsMismatch c4DescW.router "/items/:id"]) :=
  c4_amended c4DescW [] "pkg.GetItem" { Method := "GET", Path := "/items/:id" } []
    (by decide) (by decide) (by decide) (by decide)



/-- Lookup on a cons cell. -/
theorem lookupStr_cons {α : Type} (a : String × α) (l : List (String × α)) (k : String) :
    lookupStr (a :: l) k = if a.1 = k then some a.2 else lookupStr l k := by
  unfold lookupStr
  rw [List.find?_cons]
  by_cases h : a.1 = k <;> simp [h]

/-- Lookup on a cons cell, Nat keys. -/
theorem lookupNat_cons {α : Type} (a : Nat × α) (l : List (Nat × α)) (k : Nat) :
    lookupNat (a :: l) k = if a.1 = k then some a.2 else lookupNat l k := by
  unfold lookupNat
  rw [List.find?_cons]
  by_cases h : a.1 = k <;> simp [h]

/-- Lookup distributes over append, preferring the left list. -/
theorem lookupStr_append {α : Type} (l1 l2 : List (String × α)) (k : String) :
    lookupStr (l1 ++ l2) k = (lookupStr l1 k).or (lookupStr l2 k) := by
  unfold lookupStr
  rw [List.find?_append]
  cases l1.find? fun kv => kv.1 = k <;> simp

/-- Lookup distributes over append, Nat keys. -/
theorem lookupNat_append {α : Type} (l1 l2 : List (Nat × α)) (k : Nat) :
    lookupNat (l1 ++ l2) k = (lookupNat l1 k).or (lookupNat l2 k) := by
  unfold lookupNat
  rw [List.find?_append]
  cases l1.find? fun kv => kv.1 = k <;> simp

/-- Lookup ignores the entries an overwrite removed. -/
theorem lookupStr_filter_ne {α : Type} (l : List (String × α)) (k : String) :
    lookupStr (l.filter fun kv => kv.1 ≠ k) k = none := by
  induction l with
  | nil => rfl
  | cons a l ih =>
    by_cases h : a.1 = k
    · simpa [List.filter_cons, h] using ih
    · simpa [List.filter_cons, h, lookupStr_cons] using ih

/-- Filtering out one key leaves lookups of other keys unchanged. -/
theorem lookupStr_filter_ne_other {α : Type} (l : List (String × α)) (k k' : String)
    (h : k' ≠ k) : lookupStr (l.filter fun kv => kv.1 ≠ k) k' = lookupStr l k' := by
  induction l with
  | nil => rfl
  | cons a l ih =>
    simp only [List.filter_cons]
    by_cases hak : a.1 = k
    · rw [if_neg (by simp [hak])]
      rw [ih, lookupStr_cons]
      rw [if_neg (fun hc : a.1 = k' => h (hc ▸ hak))]
    · rw [if_pos (by simp [hak])]
      rw [lookupStr_cons, lookupStr_cons, ih]

/-- Lookup after an overwriting insert finds the inserted value. -/
theorem lookupStr_upsert_self {α : Type} (l : List (String × α)) (k : String) (v : α) :
    lookupStr (upsertStr l k v) k = some v := by
  unfold upsertStr
  rw [lookupStr_append, lookupStr_filter_ne]
  simp [lookupStr]

/-- Lookup of a different key is unchanged by an overwriting insert. -/
theorem lookupStr_upsert_other {α : Type} (l : List (String × α)) (k k' : String)
    (v : α) (h : k' ≠ k) : lookupStr (upsertStr l k v) k' = lookupStr l k' := by
  unfold upsertStr
  rw [lookupStr_append, lookupStr_filter_ne_other l k k' h]
  cases hl : lookupStr l k' with
  | some w => rfl
  | none => simp [lookupStr, Ne.symm h]

/-- Appending a fresh entry makes its key found. -/
theorem lookupNat_append_self {α : Type} (l : List (Nat × α)) (k : Nat) (v : α)
    (h : lookupNat l k = none) : lookupNat (l ++ [(k, v)]) k = some v := by
  rw [lookupNat_append, h]
  simp [lookupNat]

/-- Appending an entry with another key leaves a lookup unchanged. -/
theorem lookupNat_append_other {α : Type} (l : List (Nat × α)) (k k' : Nat) (v : α)
    (h : k' ≠ k) : lookupNat (l ++ [(k, v)]) k' = lookupNat l k' := by
  rw [lookupNat_append]
  cases hl : lookupNat l k' with
  | some w => rfl
  | none => simp [lookupNat, Ne.symm h]

/-- Appending a fresh entry makes its key found, String keys. -/
theorem lookupStr_append_self {α : Type} (l : List (String × α)) (k : String) (v : α)
    (h : lookupStr l k = none) : lookupStr (l ++ [(k, v)]) k = some v := by
  rw [lookupStr_append, h]
  simp [lookupStr]

/-- Appending an entry with another key leaves a lookup unchanged,
String keys. -/
theorem lookupStr_append_other {α : Type} (l : List (String × α)) (k k' : String)
    (v : α) (h : k' ≠ k) : lookupStr (l ++ [(k, v)]) k' = lookupStr l k' := by
  rw [lookupStr_append]
  cases hl : lookupStr l k' with
  | some w => rfl
  | none => simp [lookupStr, Ne.symm h]



/-- Setting a method slot makes it readable, for any recognised method. -/
theorem routeMethodOp_set (pathItem : PathItem) (method : String) (op : Nat)
    (h : hasRouteMethodOp pathItem method = true) :
    routeMethodOp (setRouteMethodOp pathItem method op) method = some op := by
  unfold hasRouteMethodOp at h
  unfold setRouteMethodOp routeMethodOp
  dsimp only at h ⊢
  split_ifs at h ⊢ <;> simp_all

/-- Claim C6, confirmed: inserting an operation for a path and method pair
that already holds one is a hard error in strict mode; in non-strict mode a
duplicate-route warning is logged and the later operation still overwrites
the earlier one in the path map. -/
theorem c6_duplicate_route (strict : Bool) (paths : List (String × PathItem))
    (logs : List ParserLog) (path method : String) (op : Nat)
    (hdup : hasRouteMethodOp ((lookupStr paths path).getD emptyPathItem) method = true) :
    (strict = true →
      insertRouteOp strict paths logs path method op = .error (method, path)) ∧
    (strict = false →
      insertRouteOp strict paths logs path method op =
        .ok (upsertStr paths path
              (setRouteMethodOp ((lookupStr paths path).getD emptyPathItem) method op),
            logs ++ [ParserLog.warnDuplicateRoute method path]) ∧
      lookupStr (upsertStr paths path
          (setRouteMethodOp ((lookupStr paths path).getD emptyPathItem) method op)) path =
        some (setRouteMethodOp ((lookupStr paths path).getD emptyPathItem) method op) ∧
      routeMethodOp
          (setRouteMethodOp ((lookupStr paths path).getD emptyPathItem) method op)
          method = some op) := by
  have hitem :
      (match lookupStr paths path with
        | some pi => pi
        | none => emptyPathItem) = (lookupStr paths path).getD emptyPathItem := by
    cases lookupStr paths path <;> rfl
  constructor
  · intro hstrict
    subst hstrict
    simp [insertRouteOp, hitem, hdup]
  · intro hstrict
    subst hstrict
    refine ⟨by simp [insertRouteOp, hitem, hdup], ?_, ?_⟩
    · exact lookupStr_upsert_self paths path _
    · exact routeMethodOp_set _ method op hdup

/-- Witness for claim C6 in non-strict mode: a second GET operation on an
occupied path logs a warning and overwrites the slot. -/
theorem c6_duplicate_route_witness :
    insertRouteOp false pathsWithGet [] "/x" "get" 2 =
      .ok (upsertStr pathsWithGet "/x"
            (setRouteMethodOp ((lookupStr pathsWithGet "/x").getD emptyPathItem) "get" 2),
          [] ++ [ParserLog.warnDuplicateRoute "get" "/x"]) ∧
    routeMethodOp
        (setRouteMethodOp ((lookupStr pathsWithGet "/x").getD emptyPathItem) "get" 2)
        "get" = some 2 := by
  have h := c6_duplicate_route false pathsWithGet [] "/x" "get" 2 (by decide)
  exact ⟨(h.2 rfl).1, (h.2 rfl).2.2⟩



/-- The parameter switch ignores a JSON response selector. -/
theorem paramSwitch_skips_json (desc : GinSwagger) (logs : List GinLog) (e : ExprItem) :
    paramSwitch desc logs e "*github.com/gin-gonic/gin.Context.JSON" =
      some (desc, logs) := by
  simp [paramSwitch]

/-- The parameter switch ignores a JSONP response selector. -/
theorem paramSwitch_skips_jsonp (desc : GinSwagger) (logs : List GinLog) (e : ExprItem) :
    paramSwitch desc logs e "*github.com/gin-gonic/gin.Context.JSONP" =
      some (desc, logs) := by
  simp [paramSwitch]

/-- Claim C8, confirmed: for a recognized JSON response call site, a status
argument equal to 200 (the symbolic OK constant or a constant of value
200, which covers the numeric spelling) populates the success slot only
when it is still empty and adds nothing when it is filled, while every
other status value is appended to the failures list and leaves the success
slot alone. -/
theorem c8_success_slot (desc : GinSwagger) (logs : List GinLog) (e : ExprItem)
    (a0 a1 : ExprArgItem) (rest : List ExprArgItem)
    (hsel : e.Receiver ++ "." ++ e.Name = "*github.com/gin-gonic/gin.Context.JSON" ∨
            e.Receiver ++ "." ++ e.Name = "*github.com/gin-gonic/gin.Context.JSONP")
    (hargs : e.Args = a0 :: a1 :: rest) :
    ((a0.Name = "http.StatusOK" ∨ a0.Value = "200") →
      (desc.success.length > 0 → exprStep (desc, logs) e = some (desc, logs)) ∧
      (desc.success.length = 0 →
        exprStep (desc, logs) e =
          some ({ desc with success :=
                    "// @Success " ++ a0.Value ++ " \x7bobject\x7d " ++ argTypeOf a1.Type_ },
                logs))) ∧
    (¬(a0.Name = "http.StatusOK" ∨ a0.Value = "200") →
      exprStep (desc, logs) e =
        some ({ desc with failures := desc.failures ++
                  ["// @Failure " ++ a0.Value ++ " \x7bobject\x7d " ++ argTypeOf a1.Type_] },
              logs)) := by
  rcases hsel with hsel | hsel <;>
  · constructor
    · intro hok
      constructor
      · intro hfull
        have hfull' : ¬ desc.success.length = 0 := by omega
        simp [exprStep, respSwitch, hsel, hargs, hok, hfull, hfull']
      · intro hempty
        have hempty' : ¬ desc.success.length > 0 := by omega
        simp [exprStep, respSwitch, hsel, hargs, hok, hempty', paramSwitch_skips_json,
          paramSwitch_skips_jsonp]
    · intro hko
      rw [not_or] at hko
      simp [exprStep, respSwitch, hsel, hargs, hko.1, hko.2, paramSwitch_skips_json,
        paramSwitch_skips_jsonp]

/-- Witness for claim C8: a JSON call writing status 201 appends a failure
line and leaves the empty success slot alone. -/
theorem c8_success_slot_witness :
    (¬(("201" : String) = "http.StatusOK" ∨ ("201" : String) = "200")) ∧
    exprStep (initGinSwagger fdSummary, []) exprJSON201 =
      some ({ initGinSwagger fdSummary with failures :=
                (initGinSwagger fdSummary).failures ++
                  ["// @Failure 201 \x7bobject\x7d " ++ argTypeOf "models.Resp"] },
            []) := by
  refine ⟨by decide, ?_⟩
  have h := c8_success_slot (initGinSwagger fdSummary) [] exprJSON201
    { Name := "201", Type_ := "int", Value := "201" }
    { Name := "resp", Type_ := "models.Resp", Value := "" } []
    (Or.inl rfl) rfl
  exact h.2 (by decide)



/-- The shared tail of getTypeSchema never returns the recursion signal. -/
theorem getTypeSchemaTail_not_recursive (st : PState) (t : TypeSpecDef)
    (schema : Schema) (ref : Bool) :
    isRecursiveErrReturn (getTypeSchemaTail st t schema ref) = false := by
  cases ref with
  | false => rfl
  | true =>
    unfold getTypeSchemaTail isRecursiveErrReturn
    cases schema.SchemaS with
    | none => rfl
    | some ss =>
      dsimp only
      split_ifs <;> rfl

/-- A reference-mode resolution request never returns the recursion
signal, whatever the state, environment and type name. -/
theorem getTypeSchema_ref_no_recursive (fuel : Nat) (env : List (String × TypeSpecDef))
    (st : PState) (name : String) :
    isRecursiveErrReturn (getTypeSchema fuel env st name true) = false := by
  match fuel with
  | 0 => rfl
  | fuel + 1 =>
    rw [getTypeSchema]
    dsimp only
    split_ifs with h1 h2
    · rfl
    · rfl
    · split
      · rfl
      · split
        · apply getTypeSchemaTail_not_recursive
        · split
          · rfl
          · rename_i schemaOpt err st1 heq
            split_ifs with herr
            · split
              · rfl
              · rfl
            · have hne : err ≠ PErr.recursiveParseStruct := by
                intro hc
                exact herr ⟨hc, rfl⟩
              cases err <;> simp_all [isRecursiveErrReturn]
          · apply getTypeSchemaTail_not_recursive
          · rfl



/-- Claim C1, amended: recursive-type detection is internal only for
reference-mode requests.  A resolution request with asReference true never
returns the recursive-parse signal; when the requested type is already on
the in-progress stack, the reference-mode caller receives a reference
schema while a placeholder object schema is registered under the display
name together with a forward reference, but the same request with
asReference false returns the recursive-parse signal to its caller. -/
theorem c1_amended :
    (∀ (fuel : Nat) (env : List (String × TypeSpecDef)) (st : PState) (name : String),
      isRecursiveErrReturn (getTypeSchema fuel env st name true) = false) ∧
    (∀ (fuel : Nat) (env : List (String × TypeSpecDef)) (st : PState) (name : String)
      (t : TypeSpecDef),
      IsGolangPrimitiveType name = false →
      (convertFromSpecificToPrimitive name).2 ≠ none →
      FindTypeSpec name env = some t →
      lookupNat st.parsedSchemas t.id = none →
      isInStructStack st t = true →
      lookupNat st.outputSchemas t.id = none →
      lookupStr st.existSchemaNames t.Name = none →
      getTypeSchema (fuel + 2) env st name false =
        some ((none, some PErr.recursiveParseStruct), st) ∧
      ∃ st2, getTypeSchema (fuel + 2) env st name true =
          some ((some (RefSchema t.Name), none), st2) ∧
        lookupStr st2.definitionsMap t.Name = some (PrimitiveSchema OBJECT) ∧
        (lookupNat st2.outputSchemas t.id).isSome = true) := by
  constructor
  · exact getTypeSchema_ref_no_recursive
  · intro fuel env st name t hprim hconv hfind hcache hstack houtput hexist
    have hpd : ParseDefinition (fuel + 1) env st t =
        some ((some (placeholderSchema t), some PErr.recursiveParseStruct), st) := by
      rw [ParseDefinition]
      simp only [hcache, hstack, if_true, placeholderSchema]
    constructor
    · rw [show fuel + 2 = (fuel + 1) + 1 from rfl, getTypeSchema]
      dsimp only
      rw [if_neg (by simp [hprim]), if_neg hconv]
      simp only [hfind, hcache, hpd]
      rw [if_neg (by simp)]
    · refine ⟨{ st with
          existSchemaNames := st.existSchemaNames ++ [(t.Name, placeholderSchema t)],
          definitionsMap := upsertStr (upsertStr st.definitionsMap t.Name emptySpecSchema)
            t.Name (PrimitiveSchema OBJECT),
          outputSchemas := st.outputSchemas ++ [(t.id, placeholderSchema t)],
          toBeRenamedRefURLs := st.toBeRenamedRefURLs ++ [refFragment t.Name] },
        ?_, ?_, ?_⟩
      · have hgrs : getRefTypeSchema st t (placeholderSchema t) =
            (RefSchema t.Name, placeholderSchema t,
             { st with
                existSchemaNames := st.existSchemaNames ++ [(t.Name, placeholderSchema t)],
                definitionsMap := upsertStr
                  (upsertStr st.definitionsMap t.Name emptySpecSchema)
                  t.Name (PrimitiveSchema OBJECT),
                outputSchemas := st.outputSchemas ++ [(t.id, placeholderSchema t)],
                toBeRenamedRefURLs := st.toBeRenamedRefURLs ++ [refFragment t.Name] }) := by
          unfold getRefTypeSchema
          simp only [placeholderSchema, TypeDocName, houtput, hexist]
        rw [show fuel + 2 = (fuel + 1) + 1 from rfl, getTypeSchema]
        dsimp only
        rw [if_neg (by simp [hprim]), if_neg hconv]
        simp only [hfind, hcache, hpd]
        rw [if_pos (by simp)]
        simp only [hgrs]
      · exact lookupStr_upsert_self _ _ _
      · rw [lookupNat_append_self _ _ _ houtput]
        rfl

/-- Witness for the amended claim C1: with alias A already on the stack,
the reference-mode request returns the reference and registers the
placeholder, while the inline-mode request returns the recursion signal. -/
theorem c1_amended_witness :
    getTypeSchema 10 aliasEnv stackedState "A" false =
      some ((none, some PErr.recursiveParseStruct), stackedState) ∧
    ∃ st2, getTypeSchema 10 aliasEnv stackedState "A" true =
        some ((some (RefSchema aliasA.Name), none), st2) ∧
      lookupStr st2.definitionsMap aliasA.Name = some (PrimitiveSchema OBJECT) ∧
      (lookupNat st2.outputSchemas aliasA.id).isSome = true :=
  c1_amended.2 8 aliasEnv stackedState "A" aliasA rfl (by decide) rfl rfl rfl rfl rfl


end GoSwagger

namespace GoSwagger

/-- Registration in the schema registry never touches the struct stack. -/
theorem getRefTypeSchema_structStack (st : PState) (t : TypeSpecDef) (s : Schema) :
    (getRefTypeSchema st t s).2.2.structStack = st.structStack := by
  unfold getRefTypeSchema
  cases h1 : lookupNat st.outputSchemas t.id
  case none =>
    cases h2 : lookupStr st.existSchemaNames s.Name
    case none => simp [h1, h2]
    case some existSchema =>
      by_cases h3 : (lookupStr st.toBeRenamedSchemas existSchema.Name).isSome <;>
        simp [h1, h2, h3]
  case some => simp [h1]

/-- The shared tail of getTypeSchema never touches the struct stack. -/
theorem getTypeSchemaTail_structStack (st : PState) (t : TypeSpecDef) (schema : Schema)
    (ref : Bool) (r : Option SpecSchema × Option PErr) (st' : PState)
    (h : getTypeSchemaTail st t schema ref = some (r, st')) :
    st'.structStack = st.structStack := by
  unfold getTypeSchemaTail at h
  split at h
  · split at h
    · cases h
    · split at h
      · cases h
        simp [writeParsed, getRefTypeSchema_structStack]
      · cases h
        rfl
  · cases h
    rfl

/-- Stack monotonicity of the schema-resolution step of a named struct
field, relative to the induction hypotheses of the fuel induction. -/
theorem resolvedMono (fuel : Nat) (env : List (String × TypeSpecDef)) (st : PState)
    (f : AstField) (customSchema : Option SpecSchema)
    (r1 : Option SpecSchema × Option PErr) (st1 : PState)
    (ihG : ∀ env st name ref r st',
      getTypeSchema fuel env st name ref = some (r, st') →
      st.structStack <+: st'.structStack)
    (ihT : ∀ env st e ref r st',
      parseTypeExpr fuel env st e ref = some (r, st') →
      st.structStack <+: st'.structStack)
    (heqR : (match customSchema with
             | some cs => some ((some cs, none), st)
             | none =>
               match getFieldType f.2 with
               | .ok typeName => getTypeSchema fuel env st typeName true
               | .error _ => parseTypeExpr fuel env st f.2 false) = some (r1, st1)) :
    st.structStack <+: st1.structStack := by
  split at heqR
  · cases heqR; exact List.prefix_rfl
  · split at heqR
    · exact ihG _ _ _ _ _ _ heqR
    · exact ihT _ _ _ _ _ _ heqR

theorem structStack_mono : ∀ fuel : Nat,
    (∀ env st name ref r st',
      getTypeSchema fuel env st name ref = some (r, st') →
      st.structStack <+: st'.structStack) ∧
    (∀ env st t r st',
      ParseDefinition fuel env st t = some (r, st') →
      st.structStack <+: st'.structStack) ∧
    (∀ env st e ref r st',
      parseTypeExpr fuel env st e ref = some (r, st') →
      st.structStack <+: st'.structStack) ∧
    (∀ env st req props fs r st',
      parseStructGo fuel env st req props fs = some (r, st') →
      st.structStack <+: st'.structStack) ∧
    (∀ env st f r st',
      parseStructField fuel env st f = some (r, st') →
      st.structStack <+: st'.structStack) := by
  intro fuel
  induction fuel with
  | zero =>
    refine ⟨?_, ?_, ?_, ?_, ?_⟩
    · intro _ _ _ _ _ _ h
      cases h
    · intro _ _ _ _ _ h
      cases h
    · intro _ _ _ _ _ _ h
      cases h
    · intro _ _ _ _ _ _ _ h
      cases h
    · intro _ _ _ _ _ h
      cases h
  | succ fuel ih =>
    obtain ⟨ihG, ihP, ihT, ihS, ihF⟩ := ih
    refine ⟨?_, ?_, ?_, ?_, ?_⟩
    · -- getTypeSchema
      intro env st name ref r st' h
      rw [getTypeSchema] at h
      dsimp only at h
      split at h
      · cases h; exact List.prefix_rfl
      · split at h
        · cases h; exact List.prefix_rfl
        · split at h
          · cases h; exact List.prefix_rfl
          · split at h
            · rw [getTypeSchemaTail_structStack _ _ _ _ _ _ h]
            · split at h
              · cases h
              · rename_i heqP
                split at h
                · split at h
                  · cases h
                  · cases h
                    have h1 := ihP _ _ _ _ _ heqP
                    rw [getRefTypeSchema_structStack]
                    exact h1
                · cases h
                  exact ihP _ _ _ _ _ heqP
              · rename_i heqP
                have h1 := ihP _ _ _ _ _ heqP
                rw [getTypeSchemaTail_structStack _ _ _ _ _ _ h]
                exact h1
              · cases h
    · -- ParseDefinition
      intro env st t r st' h
      rw [ParseDefinition] at h
      dsimp only at h
      split at h
      · cases h; exact List.prefix_rfl
      · split at h
        · cases h; exact List.prefix_rfl
        · have h0 : st.structStack <+:
              ({ st with structStack := st.structStack ++ [t] } : PState).structStack :=
            List.prefix_append _ _
          split at h
          · cases h
          · rename_i heqT
            cases h
            exact h0.trans (ihT _ _ _ _ _ _ heqT)
          · rename_i heqT
            have h1 := h0.trans (ihT _ _ _ _ _ _ heqT)
            split at h
            · cases h
              exact h1
            · cases h
              exact h1
          · cases h
    · -- parseTypeExpr
      intro env st e ref r st' h
      rw [parseTypeExpr.eq_def] at h
      dsimp only at h
      split at h
      · cases h; exact List.prefix_rfl
      · exact ihS _ _ _ _ _ _ _ h
      · exact ihG _ _ _ _ _ _ h
      · exact ihT _ _ _ _ _ _ h
      · split at h
        · exact ihG _ _ _ _ _ _ h
        · cases h; exact List.prefix_rfl
      · split at h
        · cases h
        · rename_i heqT
          cases h
          exact ihT _ _ _ _ _ _ heqT
        · rename_i heqT
          cases h
          exact ihT _ _ _ _ _ _ heqT
      · split at h
        · cases h; exact List.prefix_rfl
        · split at h
          · cases h
          · rename_i heqT
            cases h
            exact ihT _ _ _ _ _ _ heqT
          · rename_i heqT
            cases h
            exact ihT _ _ _ _ _ _ heqT
      · cases h; exact List.prefix_rfl
      · cases h; exact List.prefix_rfl
    · -- parseStructGo
      intro env st req props fs r st' h
      rw [parseStructGo.eq_def] at h
      dsimp only at h
      split at h
      · cases h; exact List.prefix_rfl
      · split at h
        · cases h
        · rename_i heqF
          split at h
          · exact (ihF _ _ _ _ _ heqF).trans (ihS _ _ _ _ _ _ _ h)
          · cases h
            exact ihF _ _ _ _ _ heqF
        · rename_i heqF
          have h1 := ihF _ _ _ _ _ heqF
          split at h
          · exact h1.trans (ihS _ _ _ _ _ _ _ h)
          · exact h1.trans (ihS _ _ _ _ _ _ _ h)
    · -- parseStructField
      intro env st f r st' h
      rw [parseStructField.eq_def] at h
      dsimp only at h
      split at h
      · -- anonymous field
        split at h
        · cases h; exact List.prefix_rfl
        · split at h
          · cases h; exact List.prefix_rfl
          · split at h
            · cases h
            · rename_i heqG
              cases h
              exact ihG _ _ _ _ _ _ heqG
            · cases h
            · rename_i heqG
              have h1 := ihG _ _ _ _ _ _ heqG
              split at h
              · split at h <;> (cases h; exact h1)
              · cases h
                exact h1
      · -- named field
        split at h
        · cases h; exact List.prefix_rfl
        · split at h
          · cases h; exact List.prefix_rfl
          · -- resolved
            split at h
            · cases h
            · rename_i heqR
              cases h
              exact resolvedMono _ _ _ _ _ _ _ ihG ihT heqR
            · rename_i heqR
              have h1 := resolvedMono _ _ _ _ _ _ _ ihG ihT heqR
              -- continuation: GetSchemaTypePath match, parseFieldTag, schemaBase
              split at h
              · cases h
              · split at h
                · cases h; exact h1
                · split at h
                  · cases h; exact h1
                  · split at h
                    · cases h
                    · split at h
                      · split at h
                        · cases h
                        · cases h; exact h1
                      · cases h; exact h1

/-- Claim C2 (amended): ParseDefinition maintains the struct stack as a
visited set, not a scoped stack: on every normal return the caller's stack
is a prefix of the returned stack (nothing is ever popped), and whenever
the type was not already in the parsed-schemas cache it is on the stack of
the returned state — including on the success exit path. -/
theorem c2_amended (fuel : Nat) (env : List (String × TypeSpecDef)) (st : PState)
    (t : TypeSpecDef) (out : Option Schema × Option PErr) (st' : PState)
    (h : ParseDefinition fuel env st t = some (out, st')) :
    st.structStack <+: st'.structStack ∧
    (lookupNat st.parsedSchemas t.id = none → isInStructStack st' t = true) := by
  cases fuel with
  | zero => cases h
  | succ fuel =>
    rw [ParseDefinition] at h
    dsimp only at h
    split at h
    · rename_i schema heq
      cases h
      refine ⟨List.prefix_rfl, ?_⟩
      intro hc
      rw [hc] at heq
      cases heq
    · rename_i heq
      split at h
      · rename_i hstack
        cases h
        exact ⟨List.prefix_rfl, fun _ => hstack⟩
      · rename_i hstack
        split at h
        · cases h
        · rename_i err st2 heqT
          cases h
          have hmono := (structStack_mono fuel).2.2.1 _ _ _ _ _ _ heqT
          dsimp only at hmono
          refine ⟨(List.prefix_append _ _).trans hmono, ?_⟩
          intro _
          have hmem : t ∈ st'.structStack := hmono.subset (by simp)
          simp only [isInStructStack, List.any_eq_true, decide_eq_true_eq]
          exact ⟨t, hmem, rfl⟩
        · rename_i defn st2 heqT
          have hmono := (structStack_mono fuel).2.2.1 _ _ _ _ _ _ heqT
          dsimp only at hmono
          have hmem : t ∈ st2.structStack := hmono.subset (by simp)
          have hpre : st.structStack <+: st2.structStack :=
            (List.prefix_append _ _).trans hmono
          split at h
          · cases h
            refine ⟨hpre, ?_⟩
            intro _
            simp only [isInStructStack, writeParsed, List.any_eq_true, decide_eq_true_eq]
            exact ⟨t, hmem, rfl⟩
          · cases h
            refine ⟨hpre, ?_⟩
            intro _
            simp only [isInStructStack, writeParsed, List.any_eq_true, decide_eq_true_eq]
            exact ⟨t, hmem, rfl⟩
        · cases h

/-- Witness for the amended C2 claim on the concrete interface-type run. -/
theorem c2_amended_witness :
    emptyPState.structStack <+: c2RunState.structStack ∧
    isInStructStack c2RunState ifaceT = true := by
  have h := c2_amended 5 ifaceEnv emptyPState ifaceT c2RunOut c2RunState (by rfl)
  exact ⟨h.1, h.2 (by rfl)⟩


end GoSwagger

namespace GoSwagger

/-- A character distinct from the replaced one survives character
replacement. -/
theorem goReplaceChar_mem {s : String} {c c1 c2 : Char} (hc : c ≠ c1)
    (hmem : c ∈ s.data) : c ∈ (goReplaceChar s c1 c2).data := by
  unfold goReplaceChar
  simp only [List.mem_map]
  exact ⟨c, hmem, by simp [hc]⟩

/-- The normalized scope-qualified name always contains a dot. -/
theorem normalizedFullName_mem_dot (t : TypeSpecDef) :
    ('.' : Char) ∈ (normalizedFullName t).data := by
  unfold normalizedFullName
  apply goReplaceChar_mem (by decide)
  simp [String.data_append]

/-- A dot-free string is never a normalized scope-qualified name. -/
theorem bare_ne_normalized {b : String} {t : TypeSpecDef}
    (hb : goContainsRune b '.' = false) : b ≠ normalizedFullName t := by
  intro h
  unfold goContainsRune at hb
  rw [h] at hb
  have hmem := normalizedFullName_mem_dot t
  have htrue : (normalizedFullName t).data.contains '.' = true := List.elem_iff.mpr hmem
  rw [htrue] at hb
  simp at hb

/-- Slash replacement leaves no slash behind. -/
theorem goReplaceChar_no_slash (s : String) :
    goContainsRune (goReplaceChar s '/' '_') '/' = false := by
  unfold goContainsRune goReplaceChar
  rw [Bool.eq_false_iff]
  intro hc
  have hmem : ('/' : Char) ∈ List.map (fun c => if c = '/' then '_' else c) s.data :=
    List.elem_iff.mp hc
  rw [List.mem_map] at hmem
  obtain ⟨a, _, ha⟩ := hmem
  by_cases h : a = '/' <;> simp [h] at ha

/-- The normalized scope-qualified name is slash-free. -/
theorem normalizedFullName_no_slash (t : TypeSpecDef) :
    goContainsRune (normalizedFullName t) '/' = false :=
  goReplaceChar_no_slash _

/-- For a dot-free bare name and a nonempty package path, renameSchema
computes exactly the normalized scope-qualified name. -/
theorem renameSchema_eq_normalized (t : TypeSpecDef)
    (hdot : goContainsRune t.Name '.' = false) (hp : t.PkgPath ≠ "") :
    renameSchema t.Name t.PkgPath = normalizedFullName t := by
  unfold renameSchema goSplit
  rw [goSplitChar_no_sep hdot]
  show goReplaceChar (fullTypeName t.PkgPath ⟨t.Name.data⟩) '/' '_' = normalizedFullName t
  unfold fullTypeName normalizedFullName
  rw [if_pos hp]

/-- Splitting a list with a marked separator position: the separator-free
prefix becomes the first field. -/
theorem goSplitChar_append_sep {l1 l2 : List Char} {sep : Char}
    (h : l1.contains sep = false) :
    goSplitChar (l1 ++ sep :: l2) sep = l1 :: goSplitChar l2 sep := by
  induction l1 with
  | nil =>
    rw [List.nil_append, goSplitChar, if_pos rfl]
  | cons c rest ih =>
    simp only [List.contains_cons, Bool.or_eq_false_iff] at h
    obtain ⟨h1, h2⟩ := h
    have hne : ¬ c = sep := by
      intro hc
      subst hc
      simp at h1
    rw [List.cons_append, goSplitChar, if_neg hne, ih h2]

/-- Splitting a recorded reference fragment: the slash-free schema name is
the last field. -/
theorem goSplit_refFragment {b : String} (hb : goContainsRune b '/' = false) :
    goSplit (refFragment b) '/' = ["", "definitions", b] := by
  unfold goSplit refFragment
  have hdata : ("/definitions/" ++ b).data =
      ([] : List Char) ++ '/' :: ("definitions".data ++ '/' :: b.data) := by
    simp [String.data_append]
  rw [hdata, goSplitChar_append_sep (by decide),
    goSplitChar_append_sep (by decide), goSplitChar_no_sep hb]
  rfl

/-- Joining the rewritten fragment fields reassembles a reference
fragment. -/
theorem goJoin_fragment (x : String) :
    goJoin ["", "definitions", x] '/' = refFragment x := by
  unfold goJoin refFragment
  apply congrArg
  simp [goJoinChar, String.data_append]

/-- rewriteRefURL rewrites a fragment whose slash-free last segment is
marked for renaming. -/
theorem rewriteRefURL_hit (tbr : List (String × String)) (b p : String)
    (hb : goContainsRune b '/' = false) (hlook : lookupStr tbr b = some p) :
    rewriteRefURL tbr (refFragment b) = refFragment (renameSchema b p) := by
  unfold rewriteRefURL
  rw [goSplit_refFragment hb]
  dsimp only
  rw [show (["", "definitions", b] : List String).getLastD "" = b from rfl, hlook]
  exact goJoin_fragment _

/-- rewriteRefURL leaves a fragment alone when its slash-free last segment
is not marked. -/
theorem rewriteRefURL_miss (tbr : List (String × String)) (n : String)
    (hn : goContainsRune n '/' = false) (hlook : lookupStr tbr n = none) :
    rewriteRefURL tbr (refFragment n) = refFragment n := by
  unfold rewriteRefURL
  rw [goSplit_refFragment hn]
  dsimp only
  rw [show (["", "definitions", n] : List String).getLastD "" = n from rfl, hlook]

/-- Registration of a fresh schema name: the name is recorded, a
definitions entry is created under it, the schema is stored, and a
reference URL is recorded. -/
theorem getRefTypeSchema_fresh (st : PState) (t : TypeSpecDef) (s : Schema) (ss : SpecSchema)
    (hout : lookupNat st.outputSchemas t.id = none)
    (hexist : lookupStr st.existSchemaNames s.Name = none)
    (hss : s.SchemaS = some ss) :
    (getRefTypeSchema st t s).2.2 =
      { st with
          existSchemaNames := st.existSchemaNames ++ [(s.Name, s)]
          definitionsMap :=
            upsertStr (upsertStr st.definitionsMap s.Name emptySpecSchema) s.Name ss
          outputSchemas := st.outputSchemas ++ [(t.id, s)]
          toBeRenamedRefURLs := st.toBeRenamedRefURLs ++ [refFragment s.Name] } := by
  unfold getRefTypeSchema
  rw [hout, hexist]
  dsimp only
  rw [hss]

/-- Registration of a schema whose name is already taken and not yet
marked: the arriving schema is renamed immediately, the first holder is
marked to be renamed, and the entry and URL use the renamed name. -/
theorem getRefTypeSchema_collide (st : PState) (t : TypeSpecDef) (s e : Schema) (ss : SpecSchema)
    (hout : lookupNat st.outputSchemas t.id = none)
    (hexist : lookupStr st.existSchemaNames s.Name = some e)
    (hmark : lookupStr st.toBeRenamedSchemas e.Name = none)
    (hss : s.SchemaS = some ss) :
    (getRefTypeSchema st t s).2.2 =
      { st with
          toBeRenamedSchemas := st.toBeRenamedSchemas ++ [(e.Name, e.PkgPath)]
          definitionsMap :=
            upsertStr (upsertStr st.definitionsMap (renameSchema s.Name s.PkgPath)
              emptySpecSchema) (renameSchema s.Name s.PkgPath) ss
          outputSchemas :=
            st.outputSchemas ++ [(t.id, { s with Name := renameSchema s.Name s.PkgPath })]
          toBeRenamedRefURLs :=
            st.toBeRenamedRefURLs ++ [refFragment (renameSchema s.Name s.PkgPath)] } := by
  unfold getRefTypeSchema
  rw [hout, hexist]
  dsimp only
  rw [hmark]
  simp only [Option.isSome_none, Bool.false_eq_true, if_false]
  rw [hss]

/-- Two-step registration of a colliding pair of named object types on the
empty state: the first keeps its bare name; the second is renamed
immediately and the first is marked for the rename pass. -/
theorem processRegs_pair (t1 t2 : TypeSpecDef)
    (hbare : t2.Name = t1.Name) (hid : t1.id ≠ t2.id)
    (hne : t1.Name ≠ renameSchema t2.Name t2.PkgPath) :
    processRegs emptyPState [t1, t2] =
      { parsedSchemas := [],
        outputSchemas := [(t1.id, { Name := t1.Name, PkgPath := t1.PkgPath, SchemaS := some (PrimitiveSchema OBJECT) }), (t2.id, { Name := renameSchema t2.Name t2.PkgPath, PkgPath := t2.PkgPath, SchemaS := some (PrimitiveSchema OBJECT) })],
        existSchemaNames := [(t1.Name, { Name := t1.Name, PkgPath := t1.PkgPath, SchemaS := some (PrimitiveSchema OBJECT) })],
        toBeRenamedSchemas := [(t1.Name, t1.PkgPath)],
        toBeRenamedRefURLs :=
          [refFragment t1.Name, refFragment (renameSchema t2.Name t2.PkgPath)],
        definitionsMap :=
          [(t1.Name, PrimitiveSchema OBJECT),
           (renameSchema t2.Name t2.PkgPath, PrimitiveSchema OBJECT)],
        structStack := [],
        PropNamingStrategy := "" } := by
  have h1 : (getRefTypeSchema emptyPState t1 (regSchemaFor emptyPState t1)).2.2 =
      ({ parsedSchemas := [], outputSchemas := [(t1.id, { Name := t1.Name, PkgPath := t1.PkgPath, SchemaS := some (PrimitiveSchema OBJECT) })], existSchemaNames := [(t1.Name, { Name := t1.Name, PkgPath := t1.PkgPath, SchemaS := some (PrimitiveSchema OBJECT) })], toBeRenamedSchemas := [], toBeRenamedRefURLs := [refFragment t1.Name], definitionsMap := [(t1.Name, PrimitiveSchema OBJECT)], structStack := [], PropNamingStrategy := "" } : PState) := by
    rw [getRefTypeSchema_fresh emptyPState t1 _ (PrimitiveSchema OBJECT) rfl rfl rfl]
    simp [upsertStr, emptyPState, regSchemaFor, TypeDocName, lookupNat]
  have hout2 : lookupNat ([(t1.id, { Name := t1.Name, PkgPath := t1.PkgPath, SchemaS := some (PrimitiveSchema OBJECT) })] : List (Nat × Schema)) t2.id = none := by
    rw [lookupNat_cons, if_neg hid]
    rfl
  have hreg2 : regSchemaFor ({ parsedSchemas := [], outputSchemas := [(t1.id, { Name := t1.Name, PkgPath := t1.PkgPath, SchemaS := some (PrimitiveSchema OBJECT) })], existSchemaNames := [(t1.Name, { Name := t1.Name, PkgPath := t1.PkgPath, SchemaS := some (PrimitiveSchema OBJECT) })], toBeRenamedSchemas := [], toBeRenamedRefURLs := [refFragment t1.Name], definitionsMap := [(t1.Name, PrimitiveSchema OBJECT)], structStack := [], PropNamingStrategy := "" } : PState) t2 =
      { Name := t2.Name, PkgPath := t2.PkgPath,
        SchemaS := some (PrimitiveSchema OBJECT) } := by
    unfold regSchemaFor
    dsimp only
    rw [hout2]
    rfl
  have hexist2 : lookupStr ([(t1.Name, { Name := t1.Name, PkgPath := t1.PkgPath, SchemaS := some (PrimitiveSchema OBJECT) })] : List (String × Schema)) t2.Name =
      some { Name := t1.Name, PkgPath := t1.PkgPath, SchemaS := some (PrimitiveSchema OBJECT) } := by
    rw [lookupStr_cons, if_pos hbare.symm]
  simp only [processRegs]
  rw [h1, hreg2]
  rw [getRefTypeSchema_collide ({ parsedSchemas := [], outputSchemas := [(t1.id, { Name := t1.Name, PkgPath := t1.PkgPath, SchemaS := some (PrimitiveSchema OBJECT) })], existSchemaNames := [(t1.Name, { Name := t1.Name, PkgPath := t1.PkgPath, SchemaS := some (PrimitiveSchema OBJECT) })], toBeRenamedSchemas := [], toBeRenamedRefURLs := [refFragment t1.Name], definitionsMap := [(t1.Name, PrimitiveSchema OBJECT)], structStack := [], PropNamingStrategy := "" } : PState) t2
    { Name := t2.Name, PkgPath := t2.PkgPath, SchemaS := some (PrimitiveSchema OBJECT) }
    { Name := t1.Name, PkgPath := t1.PkgPath, SchemaS := some (PrimitiveSchema OBJECT) } (PrimitiveSchema OBJECT) hout2 hexist2 rfl rfl]
  simp [upsertStr, hne]

/-- The rename pass on the post-registration state of a colliding pair:
the first holder's definitions entry moves to its scope-qualified name and
the recorded URL pointing at the bare name is rewritten; the already
renamed second entry and its URL are untouched. -/
theorem renamePass_pair (t1 t2 : TypeSpecDef)
    (hne : t1.Name ≠ renameSchema t2.Name t2.PkgPath)
    (hn12 : renameSchema t2.Name t2.PkgPath ≠ renameSchema t1.Name t1.PkgPath)
    (hsl1 : goContainsRune t1.Name '/' = false)
    (hsl2 : goContainsRune (renameSchema t2.Name t2.PkgPath) '/' = false) :
    renameRefSchemas
      ({ parsedSchemas := [],
         outputSchemas := [(t1.id, { Name := t1.Name, PkgPath := t1.PkgPath, SchemaS := some (PrimitiveSchema OBJECT) }), (t2.id, { Name := renameSchema t2.Name t2.PkgPath, PkgPath := t2.PkgPath, SchemaS := some (PrimitiveSchema OBJECT) })],
         existSchemaNames := [(t1.Name, { Name := t1.Name, PkgPath := t1.PkgPath, SchemaS := some (PrimitiveSchema OBJECT) })],
         toBeRenamedSchemas := [(t1.Name, t1.PkgPath)],
         toBeRenamedRefURLs :=
           [refFragment t1.Name, refFragment (renameSchema t2.Name t2.PkgPath)],
         definitionsMap :=
           [(t1.Name, PrimitiveSchema OBJECT),
            (renameSchema t2.Name t2.PkgPath, PrimitiveSchema OBJECT)],
         structStack := [],
         PropNamingStrategy := "" } : PState) =
      ({ parsedSchemas := [],
         outputSchemas := [(t1.id, { Name := t1.Name, PkgPath := t1.PkgPath, SchemaS := some (PrimitiveSchema OBJECT) }), (t2.id, { Name := renameSchema t2.Name t2.PkgPath, PkgPath := t2.PkgPath, SchemaS := some (PrimitiveSchema OBJECT) })],
         existSchemaNames := [(t1.Name, { Name := t1.Name, PkgPath := t1.PkgPath, SchemaS := some (PrimitiveSchema OBJECT) })],
         toBeRenamedSchemas := [(t1.Name, t1.PkgPath)],
         toBeRenamedRefURLs :=
           [refFragment (renameSchema t1.Name t1.PkgPath),
            refFragment (renameSchema t2.Name t2.PkgPath)],
         definitionsMap :=
          [(renameSchema t2.Name t2.PkgPath, PrimitiveSchema OBJECT),
           (renameSchema t1.Name t1.PkgPath, PrimitiveSchema OBJECT)],
         structStack := [],
         PropNamingStrategy := "" } : PState) := by
  have hlk : lookupStr ([(t1.Name, PrimitiveSchema OBJECT),
      (renameSchema t2.Name t2.PkgPath, PrimitiveSchema OBJECT)] :
      List (String × SpecSchema)) t1.Name = some (PrimitiveSchema OBJECT) := by
    rw [lookupStr_cons, if_pos rfl]
  have hurl1 : rewriteRefURL [(t1.Name, t1.PkgPath)] (refFragment t1.Name) =
      refFragment (renameSchema t1.Name t1.PkgPath) :=
    rewriteRefURL_hit _ _ _ hsl1 (by rw [lookupStr_cons, if_pos rfl])
  have hurl2 : rewriteRefURL [(t1.Name, t1.PkgPath)]
      (refFragment (renameSchema t2.Name t2.PkgPath)) =
      refFragment (renameSchema t2.Name t2.PkgPath) :=
    rewriteRefURL_miss _ _ hsl2 (by rw [lookupStr_cons, if_neg (fun hc => hne hc)]; rfl)
  unfold renameRefSchemas
  rw [if_neg (by simp)]
  dsimp only [List.foldl]
  rw [hlk]
  simp [upsertStr, removeStr, hurl1, hurl2, hn12, Ne.symm hne]

/-- Claim C5 (amended): when a second named object type arrives with the
same bare name as an earlier registration but a different scope, the
arriving schema is renamed immediately (scope-qualified, separators
normalized) and the first holder is marked; after the single rename pass
the definitions-map keys are exactly the two normalized scope-qualified
names — distinct, so no two type identities share an entry — and both
recorded reference URLs carry the resolved final names.  The added
hypothesis that the normalized names of the two types differ is necessary:
the slash-to-underscore normalization is not injective across scopes. -/
theorem c5_amended (t1 t2 : TypeSpecDef)
    (hbare : t2.Name = t1.Name) (hid : t1.id ≠ t2.id)
    (hg1 : goodReg t1) (hg2 : goodReg t2)
    (hdist : normalizedFullName t1 ≠ normalizedFullName t2) :
    (∃ s, lookupNat (processRegs emptyPState [t1, t2]).outputSchemas t2.id = some s ∧
       s.Name = normalizedFullName t2) ∧
    (processRegs emptyPState [t1, t2]).toBeRenamedSchemas = [(t1.Name, t1.PkgPath)] ∧
    (renameRefSchemas (processRegs emptyPState [t1, t2])).definitionsMap =
      [(normalizedFullName t2, PrimitiveSchema OBJECT),
       (normalizedFullName t1, PrimitiveSchema OBJECT)] ∧
    ((renameRefSchemas (processRegs emptyPState [t1, t2])).definitionsMap.map
      Prod.fst).Nodup ∧
    (renameRefSchemas (processRegs emptyPState [t1, t2])).toBeRenamedRefURLs =
      [refFragment (normalizedFullName t1), refFragment (normalizedFullName t2)] ∧
    resolvedFinalName [t1, t2] t1 = normalizedFullName t1 ∧
    resolvedFinalName [t1, t2] t2 = normalizedFullName t2 := by
  obtain ⟨hn1e, hp1, hdot1, hsl1⟩ := hg1
  obtain ⟨hn2e, hp2, hdot2, hsl2⟩ := hg2
  have hr1 : renameSchema t1.Name t1.PkgPath = normalizedFullName t1 :=
    renameSchema_eq_normalized t1 hdot1 hp1
  have hr2 : renameSchema t2.Name t2.PkgPath = normalizedFullName t2 :=
    renameSchema_eq_normalized t2 hdot2 hp2
  have hne : t1.Name ≠ renameSchema t2.Name t2.PkgPath := by
    rw [hr2]
    exact bare_ne_normalized hdot1
  have hn12 : renameSchema t2.Name t2.PkgPath ≠ renameSchema t1.Name t1.PkgPath := by
    rw [hr1, hr2]
    exact hdist.symm
  have hsl2r : goContainsRune (renameSchema t2.Name t2.PkgPath) '/' = false := by
    rw [hr2]
    exact normalizedFullName_no_slash t2
  have hcol : collidedBare [t1, t2] t1.Name = true := by
    simp [collidedBare, hbare]
  have hmid := processRegs_pair t1 t2 hbare hid hne
  have hfin := renamePass_pair t1 t2 hne hn12 hsl1 hsl2r
  rw [hmid, hfin]
  refine ⟨?_, rfl, ?_, ?_, ?_, ?_, ?_⟩
  · refine ⟨{ Name := renameSchema t2.Name t2.PkgPath, PkgPath := t2.PkgPath,
              SchemaS := some (PrimitiveSchema OBJECT) }, ?_, hr2⟩
    rw [lookupNat_cons, if_neg hid, lookupNat_cons, if_pos rfl]
  · simp only [hr1, hr2]
  · simp [hn12]
  · simp only [hr1, hr2]
  · simp [resolvedFinalName, hcol, hr1]
  · have hcol2 : collidedBare [t1, t2] t2.Name = true := by
      rw [hbare]
      exact hcol
    simp [resolvedFinalName, hcol2, hr2]

/-- Witness for the amended C5 claim on the two Item types from packages p
and a slash-containing package. -/
theorem c5_amended_witness :
    (∃ s, lookupNat (processRegs emptyPState [itemFirst, itemSlash]).outputSchemas
       itemSlash.id = some s ∧ s.Name = normalizedFullName itemSlash) ∧
    (processRegs emptyPState [itemFirst, itemSlash]).toBeRenamedSchemas =
      [(itemFirst.Name, itemFirst.PkgPath)] ∧
    (renameRefSchemas (processRegs emptyPState [itemFirst, itemSlash])).definitionsMap =
      [(normalizedFullName itemSlash, PrimitiveSchema OBJECT),
       (normalizedFullName itemFirst, PrimitiveSchema OBJECT)] ∧
    ((renameRefSchemas (processRegs emptyPState [itemFirst, itemSlash])).definitionsMap.map
      Prod.fst).Nodup ∧
    (renameRefSchemas (processRegs emptyPState [itemFirst, itemSlash])).toBeRenamedRefURLs =
      [refFragment (normalizedFullName itemFirst),
       refFragment (normalizedFullName itemSlash)] ∧
    resolvedFinalName [itemFirst, itemSlash] itemFirst = normalizedFullName itemFirst ∧
    resolvedFinalName [itemFirst, itemSlash] itemSlash = normalizedFullName itemSlash :=
  c5_amended itemFirst itemSlash (by decide) (by decide)
    ⟨by decide, by decide, by decide, by decide⟩
    ⟨by decide, by decide, by decide, by decide⟩ (by decide)

end GoSwagger
